import Mathlib

/-!
Verification of the gSender Height Map core: the bilinear interpolation
utilities (`src/app/src/features/HeightMap/utils/interpolation.ts`) and the
G-code transformation engine (`gcodeTransform`, same feature).

Modelling conventions (shallow embedding):
* JavaScript `number` is modelled as the exact rational type `ℚ`.
* `Number(q.toFixed(n))` is modelled by `roundTo n` (round half towards
  `+∞` at `n` decimal places, exactly the ECMAScript `toFixed` tie rule
  "pick the larger n").
* `Math.sqrt`-based tests and counts are modelled square-free:
  `Math.sqrt d2 <= L` becomes `0 ≤ L ∧ d2 ≤ L ^ 2` (`distLE`) and
  `Math.ceil (Math.sqrt d2 / L)` becomes the least `n : ℕ` with
  `d2 ≤ (n * L) ^ 2` (`ceilSqrtRatio`), which agree with the source over
  the reals.
* A transformed program is modelled as the list of emitted lines
  (`OutLine`): a line emitted byte-identical to the input is
  `OutLine.pass`, a line rebuilt by `buildGcodeLine` is `OutLine.move`
  carrying the printed (4-decimal rounded) coordinate values.  The header
  comment block of `transformGcode` is carried as data fields of
  `TransformResult`.
-/

/-- `HeightMapPoint` from `definitions.ts`. -/
structure HeightMapPoint where
  x : ℚ
  y : ℚ
  z : ℚ
deriving DecidableEq

/-- `HeightMapBounds` from `definitions.ts`. -/
structure HeightMapBounds where
  minX : ℚ
  maxX : ℚ
  minY : ℚ
  maxY : ℚ
deriving DecidableEq

/-- `HeightMapResolution` from `definitions.ts`. -/
structure HeightMapResolution where
  x : ℕ
  y : ℕ
deriving DecidableEq

/-- `HeightMapData` from `definitions.ts` (the optional presentation
metadata `createdAt`, `units`, `config` plays no role in the verified
functions and is omitted). -/
structure HeightMapData where
  bounds : HeightMapBounds
  resolution : HeightMapResolution
  points : List HeightMapPoint
deriving DecidableEq

set_option allowUnsafeReducibility true in
attribute [semireducible] Rat.add Rat.mul Rat.inv Rat.sub Rat.neg Rat.div

/-- `Number(q.toFixed(d))`: round half towards `+∞` at `d` decimals. -/
def roundTo (d : ℕ) (q : ℚ) : ℚ :=
  (⌊q * (10 : ℚ) ^ d + 1 / 2⌋ : ℚ) / (10 : ℚ) ^ d

/-- `Number(q.toFixed(3))`. -/
def round3 (q : ℚ) : ℚ := roundTo 3 q

/-- `Number(q.toFixed(4))`. -/
def round4 (q : ℚ) : ℚ := roundTo 4 q

/-- `[...new Set(l)].sort((a, b) => a - b)`: distinct values in ascending
order. -/
def uniqueSorted (l : List ℚ) : List ℚ :=
  List.insertionSort (· ≤ ·) l.dedup

/-- `Math.max(lo, Math.min(hi, v))`. -/
def clampQ (lo hi v : ℚ) : ℚ := max lo (min hi v)

/-- The interval-selection loop of `findSurroundingPoints`: the first index
`i` with `u[i] <= c <= u[i+1]`, defaulting to the last interval
(`u.length - 2`) when no interval contains `c`. -/
def cellIdx : List ℚ → ℚ → ℕ
  | [], _ => 0
  | [_], _ => 0
  | a :: b :: rest, c =>
    if a ≤ c ∧ c ≤ b then 0
    else if rest.isEmpty then 0
    else cellIdx (b :: rest) c + 1

/-- The four corner points returned by `findSurroundingPoints`. -/
structure SurroundingCell where
  p00 : HeightMapPoint
  p10 : HeightMapPoint
  p01 : HeightMapPoint
  p11 : HeightMapPoint
deriving DecidableEq

/-- `points.find(p => p.x === a && p.y === b)`: the first stored point at
the grid coordinate `(a, b)`. -/
def lookupCorner (pts : List HeightMapPoint) (a b : ℚ) : Option HeightMapPoint :=
  pts.find? (fun p => decide (p.x = a ∧ p.y = b))

/-- `findSurroundingPoints` from `interpolation.ts`. -/
def findSurroundingPoints (x y : ℚ) (mapData : HeightMapData) :
    Option SurroundingCell :=
  let uniqueX := uniqueSorted (mapData.points.map (fun p => p.x))
  let uniqueY := uniqueSorted (mapData.points.map (fun p => p.y))
  if uniqueX.length < 2 ∨ uniqueY.length < 2 then none
  else
    let clampedX := clampQ mapData.bounds.minX mapData.bounds.maxX x
    let clampedY := clampQ mapData.bounds.minY mapData.bounds.maxY y
    let x0Index := cellIdx uniqueX clampedX
    let y0Index := cellIdx uniqueY clampedY
    let x0 := uniqueX.getD x0Index 0
    let x1 := uniqueX.getD (x0Index + 1) x0
    let y0 := uniqueY.getD y0Index 0
    let y1 := uniqueY.getD (y0Index + 1) y0
    match lookupCorner mapData.points x0 y0, lookupCorner mapData.points x1 y0,
          lookupCorner mapData.points x0 y1, lookupCorner mapData.points x1 y1 with
    | some p00, some p10, some p01, some p11 => some ⟨p00, p10, p01, p11⟩
    | _, _, _, _ => none

/-- `bilinearInterpolate` from `interpolation.ts`. -/
def bilinearInterpolate (x y : ℚ) (mapData : HeightMapData) : Option ℚ :=
  match findSurroundingPoints x y mapData with
  | none => none
  | some c =>
    if c.p00.x = c.p10.x ∧ c.p00.y = c.p01.y then some c.p00.z
    else
      let xRange := c.p10.x - c.p00.x
      let yRange := c.p01.y - c.p00.y
      let xWeight := if 0 < xRange then (x - c.p00.x) / xRange else 0
      let yWeight := if 0 < yRange then (y - c.p00.y) / yRange else 0
      some (c.p00.z * (1 - xWeight) * (1 - yWeight) +
            c.p10.z * xWeight * (1 - yWeight) +
            c.p01.z * (1 - xWeight) * yWeight +
            c.p11.z * xWeight * yWeight)

/-- `getZOffset` from `interpolation.ts`; the `null` map argument is
`Option.none`.  The function is total: it never fails or throws. -/
def getZOffset (x y : ℚ) (mapData : Option HeightMapData) : ℚ :=
  match mapData with
  | none => 0
  | some d =>
    if d.points.isEmpty then 0
    else (bilinearInterpolate x y d).getD 0

/-- `isWithinBounds` from `interpolation.ts`. -/
def isWithinBounds (x y : ℚ) (mapData : HeightMapData) : Bool :=
  decide (mapData.bounds.minX ≤ x ∧ x ≤ mapData.bounds.maxX ∧
          mapData.bounds.minY ≤ y ∧ y ≤ mapData.bounds.maxY)

/-- Count-mode axis coordinates of `calculateProbeGrid`. -/
def axisPointsCount (minV maxV : ℚ) (pointCount : ℕ) : List ℚ :=
  let step := if 1 < pointCount then (maxV - minV) / ((pointCount : ℚ) - 1) else 0
  (List.range pointCount).map (fun (i : ℕ) => round3 (minV + (i : ℚ) * step))

/-- The spacing-mode axis coordinates of `calculateProbeGrid` before the
final `push(max)` fix-up. -/
def genPointsSpacing (minV maxV spacing : ℚ) : List ℚ :=
  let count := (Int.ceil ((maxV - minV) / spacing)).toNat + 1
  (List.range count).map (fun (i : ℕ) => round3 (min (minV + (i : ℚ) * spacing) maxV))

/-- Spacing-mode axis coordinates of `calculateProbeGrid`, including the
`push(max)` fix-up when the last generated coordinate differs from `max`. -/
def axisPointsSpacing (minV maxV spacing : ℚ) : List ℚ :=
  let gen := genPointsSpacing minV maxV spacing
  if gen.getLast? = some maxV then gen else gen ++ [maxV]

/-- Per-axis coordinate list of `calculateProbeGrid`: count mode when
`usePointCount`, else spacing mode. -/
def axisPoints (minV maxV spacing : ℚ) (usePointCount : Bool)
    (pointCount : ℕ) : List ℚ :=
  if usePointCount then axisPointsCount minV maxV pointCount
  else axisPointsSpacing minV maxV spacing

/-- One output row of the zigzag: forward on even row index, reversed on
odd row index. -/
def rowXs (xPts : List ℚ) (i : ℕ) : List ℚ :=
  if i % 2 = 0 then xPts else xPts.reverse

/-- The double loop of `calculateProbeGrid` emitting rows along the y list
in a zigzag pattern. -/
def zigzagAux (xPts : List ℚ) : List ℚ → ℕ → List (ℚ × ℚ)
  | [], _ => []
  | yv :: ys, i => (rowXs xPts i).map (fun xv => (xv, yv)) ++ zigzagAux xPts ys (i + 1)

/-- The zigzag traversal over both axis lists (row index starting at 0). -/
def zigzagRows (xPts yPts : List ℚ) : List (ℚ × ℚ) :=
  zigzagAux xPts yPts 0

/-- `calculateProbeGrid` from `interpolation.ts` (a probe target `{x, y}`
is a pair `(x, y)`). -/
def calculateProbeGrid (minX maxX minY maxY gridSpacing : ℚ)
    (usePointCount : Bool) (pointCountX pointCountY : ℕ) : List (ℚ × ℚ) :=
  zigzagRows (axisPoints minX maxX gridSpacing usePointCount pointCountX)
    (axisPoints minY maxY gridSpacing usePointCount pointCountY)

/-! ### G-code transformation engine -/

/-- Whitespace as matched by `trim` / the regex class `\s` (G-code is
ASCII, so space, tab, CR, LF suffice). -/
def isWS (c : Char) : Bool := c = ' ' || c = '\t' || c = '\n' || c = '\r'

/-- `line.trim()` on the character list. -/
def trimChars (cs : List Char) : List Char :=
  ((cs.dropWhile isWS).reverse.dropWhile isWS).reverse

/-- `line.toUpperCase()` on the character list (ASCII). -/
def upperChars (cs : List Char) : List Char := cs.map Char.toUpper

/-- Value of a (non-empty) digit string. -/
def digitsToNat (ds : List Char) : ℕ :=
  ds.foldl (fun a c => 10 * a + (c.toNat - '0'.toNat)) 0

/-- Parse the regex `-?\d+\.?\d*` (with the leading `-` only when
`allowNeg`) at the head of `cs`; `parseFloat` of the matched text. -/
def parseNumAt (cs : List Char) (allowNeg : Bool) : Option ℚ :=
  let neg := allowNeg && decide (cs.head? = some '-')
  let rest := if neg then cs.tail else cs
  let intDs := rest.takeWhile Char.isDigit
  if intDs.isEmpty then none
  else
    let rest2 := rest.drop intDs.length
    let fracDs := if decide (rest2.head? = some '.') then rest2.tail.takeWhile Char.isDigit else []
    let mag : ℚ := (digitsToNat intDs : ℚ) + (digitsToNat fracDs : ℚ) / (10 : ℚ) ^ fracDs.length
    some (if neg then -mag else mag)

/-- `trimmed.match(/L(-?\d+\.?\d*)/)`: the first position where `letter`
is followed by a number, scanning left to right. -/
def findCoord (letter : Char) (allowNeg : Bool) : List Char → Option ℚ
  | [] => none
  | c :: rest =>
    if c = letter then
      match parseNumAt rest allowNeg with
      | some v => some v
      | none => findCoord letter allowNeg rest
    else findCoord letter allowNeg rest

/-- The character class `(?:\s|X|Y|Z|F)` that must follow the motion
command word. -/
def motionTail (c : Char) : Bool :=
  isWS c || c = 'X' || c = 'Y' || c = 'Z' || c = 'F'

/-- `trimmed.match(/^G0?0(?:\s|X|Y|Z|F)/i)` on the uppercased trimmed
characters. -/
def isG0Head : List Char → Bool
  | 'G' :: '0' :: '0' :: c :: _ => motionTail c
  | 'G' :: '0' :: c :: _ => motionTail c
  | _ => false

/-- `trimmed.match(/^G0?1(?:\s|X|Y|Z|F)/i)` on the uppercased trimmed
characters. -/
def isG1Head : List Char → Bool
  | 'G' :: '0' :: '1' :: c :: _ => motionTail c
  | 'G' :: '1' :: c :: _ => motionTail c
  | _ => false

/-- Recognized motion command families (`'G2'`/`'G3'` never occur: the
source only ever constructs `'G0'`, `'G1'` or `'other'`). -/
inductive GType where
  | G0 : GType
  | G1 : GType
deriving DecidableEq

/-- `ParsedMove` from the transform engine; `type = none` is `'other'`.
The optional coordinate fields hold the target (the parsed literal, or
the tracked current value when the axis letter is absent). -/
structure ParsedMove where
  type : Option GType
  originalLine : String
  x : Option ℚ
  y : Option ℚ
  z : Option ℚ
  f : Option ℚ
  hasX : Bool
  hasY : Bool
  hasZ : Bool
deriving DecidableEq

/-- `parseGcodeLine` from the transform engine. -/
def parseGcodeLine (line : String) (currentX currentY currentZ : ℚ) : ParsedMove :=
  let trimmed := upperChars (trimChars line.data)
  if isG0Head trimmed || isG1Head trimmed then
    let t := if isG0Head trimmed then GType.G0 else GType.G1
    let xM := findCoord 'X' true trimmed
    let yM := findCoord 'Y' true trimmed
    let zM := findCoord 'Z' true trimmed
    let fM := findCoord 'F' false trimmed
    { type := some t, originalLine := line,
      x := some (xM.getD currentX), y := some (yM.getD currentY),
      z := some (zM.getD currentZ), f := fM,
      hasX := xM.isSome, hasY := yM.isSome, hasZ := zM.isSome }
  else
    { type := none, originalLine := line, x := none, y := none, z := none,
      f := none, hasX := false, hasY := false, hasZ := false }

/-- Square of `distance2D`; `Math.sqrt` is modelled square-free. -/
def distSq (x1 y1 x2 y2 : ℚ) : ℚ := (x2 - x1) ^ 2 + (y2 - y1) ^ 2

/-- `Math.sqrt d2 <= L`, stated without the square root. -/
def distLE (d2 L : ℚ) : Bool := decide (0 ≤ L ∧ d2 ≤ L ^ 2)

/-- Linear search for the least `n ≥ start` with `d2 ≤ (n*L)^2`
(structural fuel keeps the definition kernel-computable). -/
def ceilSqrtAux (d2 L : ℚ) : ℕ → ℕ → ℕ
  | 0, n => n
  | Nat.succ fuel, n =>
    if d2 ≤ (((n : ℚ)) * L) ^ 2 then n else ceilSqrtAux d2 L fuel (n + 1)

/-- `Math.ceil (Math.sqrt d2 / L)` for `L > 0`: the least `n : ℕ` with
`d2 ≤ (n*L)^2`.  For `L ≤ 0` the source's `Math.ceil` is non-positive and
its emission loop runs zero times, modelled by `0`. -/
def ceilSqrtRatio (d2 L : ℚ) : ℕ :=
  if 0 < L then ceilSqrtAux d2 L ((Int.ceil (d2 / L ^ 2)).toNat + 1) 0 else 0

/-- `segmentLine` from the transform engine. -/
def segmentLine (startX startY startZ endX endY endZ segmentLength : ℚ) :
    List (ℚ × ℚ × ℚ) :=
  let d2 := distSq startX startY endX endY
  if distLE d2 segmentLength then [(endX, endY, endZ)]
  else
    let numSegments := ceilSqrtRatio d2 segmentLength
    (List.range numSegments).map (fun (k : ℕ) =>
      (round4 (startX + (((k : ℚ) + 1) / (numSegments : ℚ)) * (endX - startX)),
       round4 (startY + (((k : ℚ) + 1) / (numSegments : ℚ)) * (endY - startY)),
       round4 (startZ + (((k : ℚ) + 1) / (numSegments : ℚ)) * (endZ - startZ))))

/-- One emitted line of the transformed program: either a line passed
through byte-identical, or a line rebuilt by `buildGcodeLine` (carrying
the printed, 4-decimal-rounded coordinate data of the text
`G_ [X..] [Y..] Z.. [F..]`). -/
inductive OutLine where
  | pass (line : String)
  | move (t : GType) (x y : Option ℚ) (z : ℚ) (f : Option ℚ)
deriving DecidableEq

/-- `buildGcodeLine` from the transform engine: the X word is printed iff
`hasX` and the value is present (likewise Y); Z is always printed;
coordinates are printed with `toFixed(4)`; F is printed unrounded. -/
def buildGcodeLine (t : GType) (x y : Option ℚ) (z : ℚ) (f : Option ℚ)
    (hasX hasY : Bool) : OutLine :=
  OutLine.move t (if hasX then x.map round4 else none)
    (if hasY then y.map round4 else none) (round4 z) f

/-- `TransformOptions` from the transform engine. -/
structure TransformOptions where
  segmentLength : ℚ
  warnOutsideBounds : Bool
deriving DecidableEq

/-- The per-segment emission loop of `transformLine`: the feed rate is
kept only on the first emitted segment (`lines.length === 0`). -/
def emitSegments (t : GType) (f : Option ℚ) (mapData : HeightMapData) :
    List (ℚ × ℚ × ℚ) → Bool → List OutLine
  | [], _ => []
  | seg :: rest, isFirst =>
    buildGcodeLine t (some seg.1) (some seg.2.1)
        (seg.2.2 + getZOffset seg.1 seg.2.1 (some mapData))
        (if isFirst then f else none) true true ::
      emitSegments t f mapData rest false

/-- `transformLine` from the transform engine. -/
def transformLine (parsed : ParsedMove) (currentX currentY currentZ : ℚ)
    (mapData : HeightMapData) (options : TransformOptions) : List OutLine :=
  match parsed.type with
  | none => [OutLine.pass parsed.originalLine]
  | some t =>
    let targetX := parsed.x.getD currentX
    let targetY := parsed.y.getD currentY
    let targetZ := parsed.z.getD currentZ
    if !parsed.hasZ && !parsed.hasX && !parsed.hasY then
      [OutLine.pass parsed.originalLine]
    else if !parsed.hasX && !parsed.hasY then
      [buildGcodeLine t none none
        (targetZ + getZOffset currentX currentY (some mapData)) parsed.f false false]
    else if distLE (distSq currentX currentY targetX targetY) options.segmentLength then
      [buildGcodeLine t (some targetX) (some targetY)
        (targetZ + getZOffset targetX targetY (some mapData)) parsed.f parsed.hasX parsed.hasY]
    else
      emitSegments t parsed.f mapData
        (segmentLine currentX currentY currentZ targetX targetY targetZ
          options.segmentLength) true

/-- The mutable locals of `transformGcode`, threaded as explicit state. -/
structure TState where
  currentX : ℚ
  currentY : ℚ
  currentZ : ℚ
  absoluteMode : Bool
  outsideBoundsWarned : Bool
deriving DecidableEq

/-- Blank lines and comment lines (leading `;` or `(`) of `transformGcode`. -/
def isBlankOrComment (line : String) : Bool :=
  match trimChars line.data with
  | [] => true
  | c :: _ => c = ';' || c = '('

/-- Substring test helper: does `sub` occur at the head of the list. -/
def startsWithChars : List Char → List Char → Bool
  | _, [] => true
  | [], _ :: _ => false
  | c :: cs, d :: ds => c = d && startsWithChars cs ds

/-- Substring occurrence anywhere in the list. -/
def containsChars : List Char → List Char → Bool
  | [], sub => sub.isEmpty
  | c :: rest, sub => startsWithChars (c :: rest) sub || containsChars rest sub

/-- `trimmed.match(/G90/i)`: case-insensitive substring search on the
trimmed line. -/
def matchesG90 (line : String) : Bool :=
  containsChars (upperChars (trimChars line.data)) ['G', '9', '0']

/-- `trimmed.match(/G91/i)`: case-insensitive substring search on the
trimmed line. -/
def matchesG91 (line : String) : Bool :=
  containsChars (upperChars (trimChars line.data)) ['G', '9', '1']

/-- The single bounds warning message of `transformGcode`. -/
def boundsWarning : String :=
  "Warning: G-code extends outside height map bounds. Z-offset will be extrapolated from nearest edge points."

/-- The body of the per-line loop of `transformGcode`: emitted lines,
emitted warnings, and the updated state. -/
def stepLine (mapData : HeightMapData) (options : TransformOptions)
    (s : TState) (line : String) : List OutLine × List String × TState :=
  if isBlankOrComment line then ([OutLine.pass line], [], s)
  else if matchesG90 line then ([OutLine.pass line], [], { s with absoluteMode := true })
  else if matchesG91 line then ([OutLine.pass line], [], { s with absoluteMode := false })
  else if !s.absoluteMode then ([OutLine.pass line], [], s)
  else
    let parsed := parseGcodeLine line s.currentX s.currentY s.currentZ
    let warn : List String :=
      if options.warnOutsideBounds && !s.outsideBoundsWarned
         && (parsed.hasX || parsed.hasY)
         && !(isWithinBounds (parsed.x.getD s.currentX) (parsed.y.getD s.currentY) mapData)
      then [boundsWarning] else []
    let warned := s.outsideBoundsWarned || !warn.isEmpty
    match parsed.type with
    | some _ =>
      (transformLine parsed s.currentX s.currentY s.currentZ mapData options, warn,
       { currentX := parsed.x.getD s.currentX, currentY := parsed.y.getD s.currentY,
         currentZ := parsed.z.getD s.currentZ, absoluteMode := s.absoluteMode,
         outsideBoundsWarned := warned })
    | none => ([OutLine.pass line], warn, { s with outsideBoundsWarned := warned })

/-- The line loop of `transformGcode`, folded over the split lines. -/
def processLines (mapData : HeightMapData) (options : TransformOptions) :
    TState → List String → List OutLine × List String × TState
  | s, [] => ([], [], s)
  | s, line :: rest =>
    let r1 := stepLine mapData options s line
    let r2 := processLines mapData options r1.2.2 rest
    (r1.1 ++ r2.1, r1.2.1 ++ r2.2.1, r2.2.2)

/-- Initial engine state of `transformGcode`: origin position, absolute
mode (G90 default), no warning emitted yet. -/
def initialTState : TState :=
  { currentX := 0, currentY := 0, currentZ := 0,
    absoluteMode := true, outsideBoundsWarned := false }

/-- Result of `transformGcode`.  The source prepends a three-comment
header (tool name, map bounds, grid point count) and a blank line; the
data interpolated into that header is carried in `headerBounds` and
`headerPointCount`, and `body` is the list of emitted lines after the
header. -/
structure TransformResult where
  headerBounds : HeightMapBounds
  headerPointCount : ℕ
  body : List OutLine
  warnings : List String
deriving DecidableEq

/-- `transformGcode` from the transform engine (the source takes the
newline-joined text and splits on `'\n'`; the embedding takes the split
line list). -/
def transformGcode (lines : List String) (mapData : HeightMapData)
    (options : TransformOptions) : TransformResult :=
  let r := processLines mapData options initialTState lines
  { headerBounds := mapData.bounds, headerPointCount := mapData.points.length,
    body := r.1, warnings := r.2.1 }

/-! ### Concrete height maps used to instantiate the theorems -/

/-- A 2x2 unit-square map with corner Z values 0, 1, 1, 2. -/
def unitMap : HeightMapData :=
  { bounds := ⟨0, 1, 0, 1⟩, resolution := ⟨2, 2⟩,
    points := [⟨0, 0, 0⟩, ⟨1, 0, 1⟩, ⟨0, 1, 1⟩, ⟨1, 1, 2⟩] }

/-- A flat 2x2 map on `[1,2] × [1,2]`, whose bounds exclude the origin. -/
def farMap : HeightMapData :=
  { bounds := ⟨1, 2, 1, 2⟩, resolution := ⟨2, 2⟩,
    points := [⟨1, 1, 0⟩, ⟨2, 1, 0⟩, ⟨1, 2, 0⟩, ⟨2, 2, 0⟩] }

/-- A two-point map: two distinct x values and two distinct y values, but
no complete grid cell. -/
def twoPointMap : HeightMapData :=
  { bounds := ⟨0, 1, 0, 1⟩, resolution := ⟨2, 2⟩,
    points := [⟨0, 0, 5⟩, ⟨1, 1, 7⟩] }

/-! ### Supporting lemmas -/

lemma uniqueSorted_nil : uniqueSorted [] = [] := by
  simp [uniqueSorted]

lemma findSurroundingPoints_nil (x y : ℚ) (d : HeightMapData)
    (h : d.points = []) : findSurroundingPoints x y d = none := by
  simp [findSurroundingPoints, h, uniqueSorted_nil]

lemma bilinearInterpolate_nil (x y : ℚ) (d : HeightMapData)
    (h : d.points = []) : bilinearInterpolate x y d = none := by
  simp [bilinearInterpolate, findSurroundingPoints_nil x y d h]

/-! ### C2 -/

/-- C2: for every coordinate `(x, y)`, `getZOffset` returns exactly 0 when
the map argument is null, when the map's points are empty, and when
`bilinearInterpolate` returns null; otherwise it returns the interpolated
value.  (Totality — it never fails or throws — is expressed by
`getZOffset` being a total function into `ℚ`.) -/
theorem c2_getZOffset_total (x y : ℚ) (m : Option HeightMapData) :
    (m = none → getZOffset x y m = 0) ∧
    (∀ d : HeightMapData, m = some d → d.points = [] → getZOffset x y m = 0) ∧
    (∀ d : HeightMapData, m = some d → bilinearInterpolate x y d = none →
      getZOffset x y m = 0) ∧
    (∀ (d : HeightMapData) (z : ℚ), m = some d →
      bilinearInterpolate x y d = some z → getZOffset x y m = z) := by
  refine ⟨?_, ?_, ?_, ?_⟩
  · rintro rfl; rfl
  · rintro d rfl h
    simp [getZOffset, h]
  · rintro d rfl h
    simp only [getZOffset]
    split
    · rfl
    · simp [h]
  · rintro d z rfl h
    have hne : d.points ≠ [] := by
      intro hnil
      rw [bilinearInterpolate_nil x y d hnil] at h
      exact Option.noConfusion h
    simp [getZOffset, List.isEmpty_iff, hne, h]

/-- Witness for C2 at concrete inputs: the interpolated-value case on the
unit map at its centre (value 1) and the null-map case. -/
theorem c2_witness :
    getZOffset (1/2) (1/2) (some unitMap) = 1 ∧ getZOffset 0 0 none = 0 := by
  constructor
  · exact (c2_getZOffset_total (1/2) (1/2) (some unitMap)).2.2.2 unitMap 1 rfl (by decide)
  · exact (c2_getZOffset_total 0 0 none).1 rfl

/-! ### C10 -/

/-- C10: a non-blank, non-comment line whose trimmed text contains the
substring `G90` or `G91` (case-insensitive, anywhere in the line) is
treated purely as a positioning-mode switch: the mode flag is updated
(`G90` wins when both occur), the line is emitted byte-identical, no
warning is emitted, and the tracked position is untouched — even when the
line also carries a motion command with coordinates. -/
theorem c10_mode_switch (mapData : HeightMapData) (options : TransformOptions)
    (s : TState) (line : String)
    (hbc : isBlankOrComment line = false)
    (hmode : (matchesG90 line || matchesG91 line) = true) :
    stepLine mapData options s line =
      ([OutLine.pass line], [], { s with absoluteMode := matchesG90 line }) := by
  cases hg : matchesG90 line with
  | true => simp [stepLine, hbc, hg]
  | false =>
    have hg1 : matchesG91 line = true := by simpa [hg] using hmode
    simp [stepLine, hbc, hg, hg1]

/-- Witness for C10: the line `"G90 G0 X10 Y10"` (a mode word sharing the
line with a motion command) from incremental mode at position (3,4,5):
emitted byte-identical, mode set to absolute, position untouched. -/
theorem c10_witness :
    stepLine unitMap ⟨1, true⟩ ⟨3, 4, 5, false, false⟩ "G90 G0 X10 Y10" =
      ([OutLine.pass "G90 G0 X10 Y10"], [], ⟨3, 4, 5, true, false⟩) := by
  have h := c10_mode_switch unitMap ⟨1, true⟩ ⟨3, 4, 5, false, false⟩
    "G90 G0 X10 Y10" (by decide) (by decide)
  rw [h]
  decide

/-! ### C9 -/

lemma parseGcodeLine_motion_fields (line : String) (cx cy cz : ℚ) (t : GType)
    (ht : (parseGcodeLine line cx cy cz).type = some t) :
    (parseGcodeLine line cx cy cz).x
        = some ((findCoord 'X' true (upperChars (trimChars line.data))).getD cx) ∧
    (parseGcodeLine line cx cy cz).y
        = some ((findCoord 'Y' true (upperChars (trimChars line.data))).getD cy) ∧
    (parseGcodeLine line cx cy cz).z
        = some ((findCoord 'Z' true (upperChars (trimChars line.data))).getD cz) ∧
    (parseGcodeLine line cx cy cz).hasX
        = (findCoord 'X' true (upperChars (trimChars line.data))).isSome ∧
    (parseGcodeLine line cx cy cz).hasY
        = (findCoord 'Y' true (upperChars (trimChars line.data))).isSome ∧
    (parseGcodeLine line cx cy cz).hasZ
        = (findCoord 'Z' true (upperChars (trimChars line.data))).isSome := by
  by_cases hm : (isG0Head (upperChars (trimChars line.data))
      || isG1Head (upperChars (trimChars line.data))) = true
  · simp [parseGcodeLine, hm]
  · rw [parseGcodeLine] at ht
    rw [if_neg hm] at ht
    exact absurd ht (by simp)

/-- C9: after the engine processes an absolute-mode motion line, the
tracked state `(currentX, currentY, currentZ)` equals the line's
pre-offset target coordinates; an axis absent from the line inherits the
previous tracked value; and the tracked position never depends on the
height map (so it is never the Z-adjusted emitted value). -/
theorem c9_state_tracks_preoffset_target (mapData : HeightMapData)
    (options : TransformOptions) (s : TState) (line : String) (t : GType)
    (hbc : isBlankOrComment line = false)
    (h90 : matchesG90 line = false) (h91 : matchesG91 line = false)
    (habs : s.absoluteMode = true)
    (ht : (parseGcodeLine line s.currentX s.currentY s.currentZ).type = some t) :
    ((stepLine mapData options s line).2.2.currentX
        = (parseGcodeLine line s.currentX s.currentY s.currentZ).x.getD s.currentX ∧
     (stepLine mapData options s line).2.2.currentY
        = (parseGcodeLine line s.currentX s.currentY s.currentZ).y.getD s.currentY ∧
     (stepLine mapData options s line).2.2.currentZ
        = (parseGcodeLine line s.currentX s.currentY s.currentZ).z.getD s.currentZ) ∧
    ((parseGcodeLine line s.currentX s.currentY s.currentZ).hasX = false →
        (stepLine mapData options s line).2.2.currentX = s.currentX) ∧
    ((parseGcodeLine line s.currentX s.currentY s.currentZ).hasY = false →
        (stepLine mapData options s line).2.2.currentY = s.currentY) ∧
    ((parseGcodeLine line s.currentX s.currentY s.currentZ).hasZ = false →
        (stepLine mapData options s line).2.2.currentZ = s.currentZ) ∧
    (∀ mapData' : HeightMapData,
        (stepLine mapData' options s line).2.2.currentX
          = (stepLine mapData options s line).2.2.currentX ∧
        (stepLine mapData' options s line).2.2.currentY
          = (stepLine mapData options s line).2.2.currentY ∧
        (stepLine mapData' options s line).2.2.currentZ
          = (stepLine mapData options s line).2.2.currentZ) := by
  obtain ⟨hx, hy, hz, hhx, hhy, hhz⟩ :=
    parseGcodeLine_motion_fields line s.currentX s.currentY s.currentZ t ht
  have hstate : ∀ m' : HeightMapData,
      (stepLine m' options s line).2.2.currentX
          = (parseGcodeLine line s.currentX s.currentY s.currentZ).x.getD s.currentX ∧
      (stepLine m' options s line).2.2.currentY
          = (parseGcodeLine line s.currentX s.currentY s.currentZ).y.getD s.currentY ∧
      (stepLine m' options s line).2.2.currentZ
          = (parseGcodeLine line s.currentX s.currentY s.currentZ).z.getD s.currentZ := by
    intro m'
    simp [stepLine, hbc, h90, h91, habs, ht]
  refine ⟨hstate mapData, ?_, ?_, ?_, ?_⟩
  · intro h
    rw [(hstate mapData).1, hx]
    rw [hhx] at h
    cases hfc : findCoord 'X' true (upperChars (trimChars line.data)) with
    | none => simp
    | some v => rw [hfc] at h; simp at h
  · intro h
    rw [(hstate mapData).2.1, hy]
    rw [hhy] at h
    cases hfc : findCoord 'Y' true (upperChars (trimChars line.data)) with
    | none => simp
    | some v => rw [hfc] at h; simp at h
  · intro h
    rw [(hstate mapData).2.2, hz]
    rw [hhz] at h
    cases hfc : findCoord 'Z' true (upperChars (trimChars line.data)) with
    | none => simp
    | some v => rw [hfc] at h; simp at h
  · intro m'
    exact ⟨((hstate m').1).trans (hstate mapData).1.symm,
           ((hstate m').2.1).trans (hstate mapData).2.1.symm,
           ((hstate m').2.2).trans (hstate mapData).2.2.symm⟩

/-- Witness for C9: the line `"G1 X3 Z7"` from state (10, 20, 30) moves
the tracked position to (3, 20, 7) — X from the line, Y inherited, Z the
pre-offset literal — for two different maps. -/
theorem c9_witness :
    (stepLine unitMap ⟨1, true⟩ ⟨10, 20, 30, true, false⟩ "G1 X3 Z7").2.2.currentX = 3 ∧
    (stepLine unitMap ⟨1, true⟩ ⟨10, 20, 30, true, false⟩ "G1 X3 Z7").2.2.currentY = 20 ∧
    (stepLine unitMap ⟨1, true⟩ ⟨10, 20, 30, true, false⟩ "G1 X3 Z7").2.2.currentZ = 7 ∧
    (stepLine farMap ⟨1, true⟩ ⟨10, 20, 30, true, false⟩ "G1 X3 Z7").2.2.currentZ = 7 := by
  have h := c9_state_tracks_preoffset_target unitMap ⟨1, true⟩
    ⟨10, 20, 30, true, false⟩ "G1 X3 Z7" GType.G1 (by decide) (by decide)
    (by decide) (by decide) (by decide)
  refine ⟨?_, ?_, ?_, ?_⟩
  · rw [h.1.1]; decide
  · rw [h.1.2.1]; decide
  · rw [h.1.2.2]; decide
  · rw [(h.2.2.2.2 farMap).2.2, h.1.2.2]; decide

/-! ### C4 -/

lemma stepLine_incremental (mapData : HeightMapData) (options : TransformOptions)
    (s : TState) (line : String)
    (habs : s.absoluteMode = false)
    (hno : isBlankOrComment line = false → matchesG90 line = false) :
    (stepLine mapData options s line).1 = [OutLine.pass line] ∧
    (stepLine mapData options s line).2.1 = [] ∧
    (stepLine mapData options s line).2.2.absoluteMode = false := by
  by_cases hbc : isBlankOrComment line = true
  · simp [stepLine, hbc, habs]
  · have hbc' : isBlankOrComment line = false := by simpa using hbc
    have h90 := hno hbc'
    by_cases h91 : matchesG91 line = true
    · simp [stepLine, hbc', h90, h91]
    · have h91' : matchesG91 line = false := by simpa using h91
      simp [stepLine, hbc', h90, h91', habs]

/-- C4: once the engine is in incremental mode, and as long as no
subsequent line switches back to absolute mode (no non-comment line
matching `G90`), every line — motion lines included — is emitted
byte-identical to its input, and no warnings are produced. -/
theorem c4_incremental_passthrough (mapData : HeightMapData)
    (options : TransformOptions) (s : TState) (lines : List String)
    (habs : s.absoluteMode = false)
    (hno : ∀ l ∈ lines, isBlankOrComment l = false → matchesG90 l = false) :
    (processLines mapData options s lines).1 = lines.map OutLine.pass ∧
    (processLines mapData options s lines).2.1 = [] := by
  induction lines generalizing s with
  | nil => simp [processLines]
  | cons l rest ih =>
    obtain ⟨hout, hwarn, habs'⟩ := stepLine_incremental mapData options s l habs
      (hno l (List.mem_cons_self l rest))
    obtain ⟨ihout, ihwarn⟩ := ih (stepLine mapData options s l).2.2 habs'
      (fun l' hl' => hno l' (List.mem_cons_of_mem l hl'))
    simp [processLines, hout, hwarn, ihout, ihwarn]

/-- Witness for C4: after a `G91` switch, the motion line `"G1 X5 Y5"` is
emitted byte-identical; the full program `["G91", "G1 X5 Y5"]` transforms
to two pass-through lines with no warnings. -/
theorem c4_witness :
    (processLines unitMap ⟨1, true⟩ ⟨0, 0, 0, false, false⟩ ["G1 X5 Y5"]).1
      = [OutLine.pass "G1 X5 Y5"] ∧
    (transformGcode ["G91", "G1 X5 Y5"] unitMap ⟨1, true⟩).body
      = [OutLine.pass "G91", OutLine.pass "G1 X5 Y5"] ∧
    (transformGcode ["G91", "G1 X5 Y5"] unitMap ⟨1, true⟩).warnings = [] := by
  refine ⟨?_, by decide, by decide⟩
  exact (c4_incremental_passthrough unitMap ⟨1, true⟩ ⟨0, 0, 0, false, false⟩
    ["G1 X5 Y5"] rfl (by decide)).1

/-! ### C5 -/

lemma stepLine_warn_char (mapData : HeightMapData) (options : TransformOptions)
    (s : TState) (line : String) :
    (stepLine mapData options s line).2.1 =
      (if isBlankOrComment line = false ∧ matchesG90 line = false
          ∧ matchesG91 line = false ∧ s.absoluteMode = true
          ∧ options.warnOutsideBounds = true ∧ s.outsideBoundsWarned = false
          ∧ ((parseGcodeLine line s.currentX s.currentY s.currentZ).hasX = true
             ∨ (parseGcodeLine line s.currentX s.currentY s.currentZ).hasY = true)
          ∧ isWithinBounds
              ((parseGcodeLine line s.currentX s.currentY s.currentZ).x.getD s.currentX)
              ((parseGcodeLine line s.currentX s.currentY s.currentZ).y.getD s.currentY)
              mapData = false
       then [boundsWarning] else []) := by
  by_cases hbc : isBlankOrComment line = true
  · simp [stepLine, hbc]
  · have hbc' : isBlankOrComment line = false := by simpa using hbc
    by_cases h90 : matchesG90 line = true
    · simp [stepLine, hbc', h90]
    · have h90' : matchesG90 line = false := by simpa using h90
      by_cases h91 : matchesG91 line = true
      · simp [stepLine, hbc', h90', h91]
      · have h91' : matchesG91 line = false := by simpa using h91
        by_cases habs : s.absoluteMode = true
        · cases hpt : (parseGcodeLine line s.currentX s.currentY s.currentZ).type with
          | none =>
            cases hwo : options.warnOutsideBounds <;>
              cases hwd : s.outsideBoundsWarned <;>
              cases hX : (parseGcodeLine line s.currentX s.currentY s.currentZ).hasX <;>
              cases hY : (parseGcodeLine line s.currentX s.currentY s.currentZ).hasY <;>
              simp [stepLine, hbc', h90', h91', habs, hpt, hwo, hwd, hX, hY]
          | some t =>
            cases hwo : options.warnOutsideBounds <;>
              cases hwd : s.outsideBoundsWarned <;>
              cases hX : (parseGcodeLine line s.currentX s.currentY s.currentZ).hasX <;>
              cases hY : (parseGcodeLine line s.currentX s.currentY s.currentZ).hasY <;>
              simp [stepLine, hbc', h90', h91', habs, hpt, hwo, hwd, hX, hY]
        · have habs' : s.absoluteMode = false := by simpa using habs
          simp [stepLine, hbc', h90', h91', habs']

lemma stepLine_flag_or_emit (mapData : HeightMapData) (options : TransformOptions)
    (s : TState) (line : String) :
    (stepLine mapData options s line).2.2.outsideBoundsWarned
      = (s.outsideBoundsWarned || !(stepLine mapData options s line).2.1.isEmpty) := by
  by_cases hbc : isBlankOrComment line = true
  · simp [stepLine, hbc]
  · have hbc' : isBlankOrComment line = false := by simpa using hbc
    by_cases h90 : matchesG90 line = true
    · simp [stepLine, hbc', h90]
    · have h90' : matchesG90 line = false := by simpa using h90
      by_cases h91 : matchesG91 line = true
      · simp [stepLine, hbc', h90', h91]
      · have h91' : matchesG91 line = false := by simpa using h91
        by_cases habs : s.absoluteMode = true
        · cases hpt : (parseGcodeLine line s.currentX s.currentY s.currentZ).type <;>
            by_cases hguard : (options.warnOutsideBounds && !s.outsideBoundsWarned
              && ((parseGcodeLine line s.currentX s.currentY s.currentZ).hasX
                  || (parseGcodeLine line s.currentX s.currentY s.currentZ).hasY)
              && !(isWithinBounds
                    ((parseGcodeLine line s.currentX s.currentY s.currentZ).x.getD s.currentX)
                    ((parseGcodeLine line s.currentX s.currentY s.currentZ).y.getD s.currentY)
                    mapData)) = true <;>
            simp [stepLine, hbc', h90', h91', habs, hpt, hguard]
        · have habs' : s.absoluteMode = false := by simpa using habs
          simp [stepLine, hbc', h90', h91', habs']

lemma stepLine_warned_monotone (mapData : HeightMapData)
    (options : TransformOptions) (s : TState) (line : String)
    (h : s.outsideBoundsWarned = true) :
    (stepLine mapData options s line).2.1 = [] ∧
    (stepLine mapData options s line).2.2.outsideBoundsWarned = true := by
  have hw : (stepLine mapData options s line).2.1 = [] := by
    rw [stepLine_warn_char]
    simp [h]
  exact ⟨hw, by rw [stepLine_flag_or_emit, h]; simp⟩

lemma processLines_warned_nil (mapData : HeightMapData)
    (options : TransformOptions) :
    ∀ (lines : List String) (s : TState), s.outsideBoundsWarned = true →
      (processLines mapData options s lines).2.1 = [] := by
  intro lines
  induction lines with
  | nil => intro s _; simp [processLines]
  | cons l rest ih =>
    intro s hwd
    obtain ⟨hw1, hw2⟩ := stepLine_warned_monotone mapData options s l hwd
    simp [processLines, hw1, ih (stepLine mapData options s l).2.2 hw2]

lemma processLines_warn_le_one (mapData : HeightMapData)
    (options : TransformOptions) :
    ∀ (lines : List String) (s : TState), s.outsideBoundsWarned = false →
      (processLines mapData options s lines).2.1.length ≤ 1 := by
  intro lines
  induction lines with
  | nil => intro s _; simp [processLines]
  | cons l rest ih =>
    intro s hwd
    have hlen : (processLines mapData options s (l :: rest)).2.1.length
        = (stepLine mapData options s l).2.1.length
          + (processLines mapData options (stepLine mapData options s l).2.2 rest).2.1.length := by
      simp [processLines]
    by_cases hemit : (stepLine mapData options s l).2.1 = []
    · by_cases hflag : (stepLine mapData options s l).2.2.outsideBoundsWarned = true
      · rw [hlen, hemit, processLines_warned_nil mapData options rest _ hflag]
        simp
      · have hflag' : (stepLine mapData options s l).2.2.outsideBoundsWarned = false := by
          simpa using hflag
        rw [hlen, hemit]
        simpa using ih (stepLine mapData options s l).2.2 hflag'
    · have hflag : (stepLine mapData options s l).2.2.outsideBoundsWarned = true := by
        rw [stepLine_flag_or_emit, hwd]
        simp [List.isEmpty_iff, hemit]
      have hw1 : (stepLine mapData options s l).2.1.length = 1 := by
        rw [stepLine_warn_char] at hemit ⊢
        split at hemit <;> simp_all
      rw [hlen, hw1, processLines_warned_nil mapData options rest _ hflag]
      simp

/-- C5 counterexample: `"G1 Z-1"` is a motion line whose target `(0, 0)`
(inherited from the initial position) lies outside `farMap`'s bounds, and
bounds warnings are enabled — yet the transform emits no warning, because
the source only performs the bounds check when the line carries an
explicit X or Y word. -/
theorem c5_counterexample :
    (transformGcode ["G1 Z-1"] farMap ⟨1, true⟩).warnings = [] ∧
    (parseGcodeLine "G1 Z-1" 0 0 0).type = some GType.G1 ∧
    (parseGcodeLine "G1 Z-1" 0 0 0).x.getD 0 = 0 ∧
    (parseGcodeLine "G1 Z-1" 0 0 0).y.getD 0 = 0 ∧
    isWithinBounds 0 0 farMap = false := by decide

/-- C5 (amended): the warnings sequence contains at most one bounds
warning; a step emits the warning exactly when warnings are enabled, the
flag is not yet set, the line is an absolute-mode motion line carrying an
explicit X or Y word, and its target is out of bounds (so a Z-only motion
line with an out-of-bounds inherited target does not warn); and once the
flag is set no step ever warns again. -/
theorem c5_amended_warning_once (mapData : HeightMapData)
    (options : TransformOptions) (lines : List String) :
    (transformGcode lines mapData options).warnings.length ≤ 1 ∧
    (∀ (s : TState) (line : String),
      (stepLine mapData options s line).2.1 =
        (if isBlankOrComment line = false ∧ matchesG90 line = false
            ∧ matchesG91 line = false ∧ s.absoluteMode = true
            ∧ options.warnOutsideBounds = true ∧ s.outsideBoundsWarned = false
            ∧ ((parseGcodeLine line s.currentX s.currentY s.currentZ).hasX = true
               ∨ (parseGcodeLine line s.currentX s.currentY s.currentZ).hasY = true)
            ∧ isWithinBounds
                ((parseGcodeLine line s.currentX s.currentY s.currentZ).x.getD s.currentX)
                ((parseGcodeLine line s.currentX s.currentY s.currentZ).y.getD s.currentY)
                mapData = false
         then [boundsWarning] else [])) ∧
    (∀ (s : TState) (line : String), s.outsideBoundsWarned = true →
      (stepLine mapData options s line).2.1 = [] ∧
      (stepLine mapData options s line).2.2.outsideBoundsWarned = true) := by
  refine ⟨?_, fun s line => stepLine_warn_char mapData options s line,
    fun s line h => stepLine_warned_monotone mapData options s line h⟩
  have h := processLines_warn_le_one mapData options lines initialTState rfl
  simpa [transformGcode] using h

/-- Witness for C5: a program with two out-of-bounds motion lines yields
exactly one warning (and at most one by the theorem), and a step whose
state already has the flag set emits nothing. -/
theorem c5_witness :
    (transformGcode ["G0 X50 Y50", "G0 X60 Y60"] unitMap ⟨100, true⟩).warnings.length ≤ 1 ∧
    (transformGcode ["G0 X50 Y50", "G0 X60 Y60"] unitMap ⟨100, true⟩).warnings.length = 1 ∧
    (stepLine unitMap ⟨100, true⟩ ⟨0, 0, 0, true, true⟩ "G0 X70 Y70").2.1 = [] := by
  refine ⟨(c5_amended_warning_once unitMap ⟨100, true⟩ ["G0 X50 Y50", "G0 X60 Y60"]).1,
    by decide,
    ((c5_amended_warning_once unitMap ⟨100, true⟩ []).2.2
      ⟨0, 0, 0, true, true⟩ "G0 X70 Y70" rfl).1⟩

/-! ### C3 -/

lemma ceilSqrtAux_spec (d2 L : ℚ) :
    ∀ (fuel start : ℕ),
      (∃ k : ℕ, k ≤ fuel ∧ d2 ≤ (((start + k : ℕ) : ℚ) * L) ^ 2) →
      d2 ≤ ((ceilSqrtAux d2 L fuel start : ℚ) * L) ^ 2 ∧
      start ≤ ceilSqrtAux d2 L fuel start ∧
      ∀ j : ℕ, start ≤ j → j < ceilSqrtAux d2 L fuel start →
        ¬ d2 ≤ ((j : ℚ) * L) ^ 2 := by
  intro fuel
  induction fuel with
  | zero =>
    intro start h
    obtain ⟨k, hk, hp⟩ := h
    have hk0 : k = 0 := Nat.le_zero.mp hk
    subst hk0
    simp only [ceilSqrtAux]
    refine ⟨by simpa using hp, le_refl _, ?_⟩
    intro j h1 h2
    omega
  | succ fuel ih =>
    intro start h
    by_cases hs : d2 ≤ ((start : ℚ) * L) ^ 2
    · simp only [ceilSqrtAux, if_pos hs]
      exact ⟨hs, le_refl _, fun j h1 h2 => absurd h1 (by omega)⟩
    · obtain ⟨k, hk, hp⟩ := h
      have hk0 : k ≠ 0 := by
        rintro rfl
        exact hs (by simpa using hp)
      have hnext : ∃ k : ℕ, k ≤ fuel ∧ d2 ≤ (((start + 1 + k : ℕ) : ℚ) * L) ^ 2 :=
        ⟨k - 1, by omega, by
          have harg : start + 1 + (k - 1) = start + k := by omega
          rw [harg]
          exact hp⟩
      obtain ⟨ha, hb, hc⟩ := ih (start + 1) hnext
      have hres : ceilSqrtAux d2 L (fuel + 1) start = ceilSqrtAux d2 L fuel (start + 1) := by
        simp only [ceilSqrtAux, if_neg hs]
      rw [hres]
      refine ⟨ha, by omega, ?_⟩
      intro j h1 h2
      rcases Nat.eq_or_lt_of_le h1 with rfl | h1'
      · exact hs
      · exact hc j (by omega) h2

lemma ceilSqrtRatio_spec (d2 L : ℚ) (hL : 0 < L) (hd2 : 0 ≤ d2) :
    d2 ≤ ((ceilSqrtRatio d2 L : ℚ) * L) ^ 2 ∧
    ∀ j : ℕ, j < ceilSqrtRatio d2 L → ¬ d2 ≤ ((j : ℚ) * L) ^ 2 := by
  have hL2 : (0 : ℚ) < L ^ 2 := by positivity
  have h1 : d2 / L ^ 2 ≤ (⌈d2 / L ^ 2⌉ : ℚ) := Int.le_ceil _
  have h2 : (⌈d2 / L ^ 2⌉ : ℚ) ≤ ((⌈d2 / L ^ 2⌉.toNat : ℕ) : ℚ) := by
    exact_mod_cast Int.self_le_toNat _
  have hFr : d2 / L ^ 2 ≤ ((⌈d2 / L ^ 2⌉.toNat + 1 : ℕ) : ℚ) := by
    push_cast
    push_cast at h2
    linarith
  have hF1 : (1 : ℚ) ≤ ((⌈d2 / L ^ 2⌉.toNat + 1 : ℕ) : ℚ) := by
    push_cast
    have : (0 : ℚ) ≤ (⌈d2 / L ^ 2⌉.toNat : ℚ) := by positivity
    linarith
  have hFP : d2 ≤ (((⌈d2 / L ^ 2⌉.toNat + 1 : ℕ) : ℚ) * L) ^ 2 := by
    have hsq : d2 / L ^ 2 ≤ ((⌈d2 / L ^ 2⌉.toNat + 1 : ℕ) : ℚ) ^ 2 := by
      nlinarith
    have hd : d2 = (d2 / L ^ 2) * L ^ 2 := by field_simp
    nlinarith
  have hex : ∃ k : ℕ, k ≤ ⌈d2 / L ^ 2⌉.toNat + 1 ∧
      d2 ≤ (((0 + k : ℕ) : ℚ) * L) ^ 2 :=
    ⟨⌈d2 / L ^ 2⌉.toNat + 1, le_refl _, by simpa using hFP⟩
  have h := ceilSqrtAux_spec d2 L (⌈d2 / L ^ 2⌉.toNat + 1) 0 hex
  have hdef : ceilSqrtRatio d2 L = ceilSqrtAux d2 L (⌈d2 / L ^ 2⌉.toNat + 1) 0 := by
    simp only [ceilSqrtRatio, if_pos hL]
  rw [hdef]
  exact ⟨h.1, fun j hj => h.2.2 j (Nat.zero_le j) hj⟩

lemma emitSegments_length (t : GType) (f : Option ℚ) (mapData : HeightMapData) :
    ∀ (segs : List (ℚ × ℚ × ℚ)) (first : Bool),
      (emitSegments t f mapData segs first).length = segs.length := by
  intro segs
  induction segs with
  | nil => intro first; simp [emitSegments]
  | cons seg rest ih => intro first; simp [emitSegments, ih]

lemma emitSegments_getD (t : GType) (f : Option ℚ) (mapData : HeightMapData) :
    ∀ (segs : List (ℚ × ℚ × ℚ)) (first : Bool) (k : ℕ), k < segs.length →
      (emitSegments t f mapData segs first).getD k (OutLine.pass "") =
        buildGcodeLine t (some (segs.getD k default).1)
          (some (segs.getD k default).2.1)
          ((segs.getD k default).2.2
            + getZOffset (segs.getD k default).1 (segs.getD k default).2.1 (some mapData))
          (if first = true ∧ k = 0 then f else none) true true := by
  intro segs
  induction segs with
  | nil => intro first k hk; simp at hk
  | cons seg rest ih =>
    intro first k hk
    cases k with
    | zero =>
      cases first <;> simp [emitSegments]
    | succ k =>
      have hk' : k < rest.length := by simpa using hk
      have := ih false k hk'
      simp only [emitSegments, List.getD_cons_succ]
      rw [this]
      simp

/-- C3: an absolute-mode G0/G1 motion line with an X or Y word whose
planar distance from the current position exceeds `segmentLength > 0` is
replaced by exactly `n` sub-segment lines, where `n` is the least natural
with `dist ≤ n * segmentLength` (that is, `ceil(dist / segmentLength)`,
stated square-free); sub-segment `k` carries the linear interpolation of
x, y, z at parameter `(k+1)/n` rounded to 4 decimals, plus the Z offset
interpolated at that sub-segment's own (x, y); the feed word is kept only
on the first sub-segment. -/
theorem c3_segmentation (parsed : ParsedMove) (cx cy cz tx ty tz : ℚ)
    (mapData : HeightMapData) (options : TransformOptions) (t : GType) (n : ℕ)
    (ht : parsed.type = some t)
    (hxy : parsed.hasX = true ∨ parsed.hasY = true)
    (hL : 0 < options.segmentLength)
    (htx : parsed.x.getD cx = tx) (hty : parsed.y.getD cy = ty)
    (htz : parsed.z.getD cz = tz)
    (hfar : distLE (distSq cx cy tx ty) options.segmentLength = false)
    (hn : n = ceilSqrtRatio (distSq cx cy tx ty) options.segmentLength) :
    (transformLine parsed cx cy cz mapData options).length = n ∧
    (distSq cx cy tx ty ≤ ((n : ℚ) * options.segmentLength) ^ 2 ∧
     ∀ j : ℕ, j < n → ¬ distSq cx cy tx ty ≤ ((j : ℚ) * options.segmentLength) ^ 2) ∧
    (∀ k : ℕ, k < n →
      (transformLine parsed cx cy cz mapData options).getD k (OutLine.pass "") =
        buildGcodeLine t
          (some (round4 (cx + (((k : ℚ) + 1) / (n : ℚ)) * (tx - cx))))
          (some (round4 (cy + (((k : ℚ) + 1) / (n : ℚ)) * (ty - cy))))
          (round4 (cz + (((k : ℚ) + 1) / (n : ℚ)) * (tz - cz))
            + getZOffset (round4 (cx + (((k : ℚ) + 1) / (n : ℚ)) * (tx - cx)))
                (round4 (cy + (((k : ℚ) + 1) / (n : ℚ)) * (ty - cy))) (some mapData))
          (if k = 0 then parsed.f else none) true true) := by
  have hd2 : (0 : ℚ) ≤ distSq cx cy tx ty := by
    simp only [distSq]
    positivity
  have hTL : transformLine parsed cx cy cz mapData options
      = emitSegments t parsed.f mapData
          (segmentLine cx cy cz tx ty tz options.segmentLength) true := by
    rcases hxy with hX | hY
    · simp [transformLine, ht, hX, htx, hty, htz, hfar]
    · simp [transformLine, ht, hY, htx, hty, htz, hfar]
  have hSL : segmentLine cx cy cz tx ty tz options.segmentLength
      = (List.range n).map (fun (k : ℕ) =>
          (round4 (cx + (((k : ℚ) + 1) / (n : ℚ)) * (tx - cx)),
           round4 (cy + (((k : ℚ) + 1) / (n : ℚ)) * (ty - cy)),
           round4 (cz + (((k : ℚ) + 1) / (n : ℚ)) * (tz - cz)))) := by
    rw [segmentLine, if_neg (by simp [hfar]), ← hn]
  have hlen : (transformLine parsed cx cy cz mapData options).length = n := by
    rw [hTL, emitSegments_length, hSL]
    simp
  have hspec := ceilSqrtRatio_spec (distSq cx cy tx ty) options.segmentLength hL hd2
  rw [← hn] at hspec
  refine ⟨hlen, hspec, ?_⟩
  intro k hk
  have hklen : k < (segmentLine cx cy cz tx ty tz options.segmentLength).length := by
    rw [hSL]; simpa using hk
  rw [hTL, emitSegments_getD t parsed.f mapData _ true k hklen]
  have hseg : (segmentLine cx cy cz tx ty tz options.segmentLength).getD k default
      = (round4 (cx + (((k : ℚ) + 1) / (n : ℚ)) * (tx - cx)),
         round4 (cy + (((k : ℚ) + 1) / (n : ℚ)) * (ty - cy)),
         round4 (cz + (((k : ℚ) + 1) / (n : ℚ)) * (tz - cz))) := by
    rw [hSL, List.getD_eq_getElem _ _ (by simpa using hk)]
    simp
  rw [hseg]
  simp

/-- Witness for C3, the spec's own example: `"G1 X100 Y0 F500"` from
(0,0,0) with segment length 50 yields exactly 2 motion lines with
pre-offset endpoints (50,0) and (100,0) (on `unitMap` the printed Z
values are the pure extrapolated offsets 50 and 100), with F only on the
first. -/
theorem c3_witness :
    (transformLine (parseGcodeLine "G1 X100 Y0 F500" 0 0 0) 0 0 0 unitMap ⟨50, true⟩).length = 2 ∧
    (transformLine (parseGcodeLine "G1 X100 Y0 F500" 0 0 0) 0 0 0 unitMap ⟨50, true⟩).getD 0 (OutLine.pass "")
      = OutLine.move GType.G1 (some 50) (some 0) 50 (some 500) ∧
    (transformLine (parseGcodeLine "G1 X100 Y0 F500" 0 0 0) 0 0 0 unitMap ⟨50, true⟩).getD 1 (OutLine.pass "")
      = OutLine.move GType.G1 (some 100) (some 0) 100 none := by
  have h := c3_segmentation (parseGcodeLine "G1 X100 Y0 F500" 0 0 0) 0 0 0 100 0 0
    unitMap ⟨50, true⟩ GType.G1 2 (by decide) (Or.inl (by decide)) (by decide)
    (by decide) (by decide) (by decide) (by decide) (by decide)
  refine ⟨h.1, ?_, ?_⟩
  · rw [h.2.2 0 (by decide)]; decide
  · rw [h.2.2 1 (by decide)]; decide

/-! ### C6 -/

/-- C6 counterexample: with `minX = 0`, `maxX = 1`, spacing
`s = 2499/2500 = 0.9996` (and a degenerate y-axis to keep the example
small), the generated coordinate at `i = 1` is `round3 0.9996 = 1`, so
the spacing-mode x-axis list is `[0, 1, 1]`: `maxX` appears twice, not
exactly once. -/
theorem c6_counterexample :
    axisPointsSpacing 0 1 (2499/2500) = [0, 1, 1] ∧
    (axisPointsSpacing 0 1 (2499/2500)).count 1 = 2 ∧
    calculateProbeGrid 0 1 0 0 (2499/2500) false 0 0 = [(0, 0), (1, 0), (1, 0)] ∧
    ((0 : ℚ) ≤ 1 ∧ (0 : ℚ) ≤ 0 ∧ (0 : ℚ) < 2499/2500) := by
  refine ⟨by decide, by decide, by decide, by decide⟩

lemma axisPointsSpacing_getLast (minV maxV spacing : ℚ) :
    (axisPointsSpacing minV maxV spacing).getLast? = some maxV := by
  rw [axisPointsSpacing]
  by_cases h : (genPointsSpacing minV maxV spacing).getLast? = some maxV
  · rw [if_pos h]; exact h
  · rw [if_neg h]; exact List.getLast?_concat _

/-- C6 (amended): for every rectangle with `minX ≤ maxX`, `minY ≤ maxY`
and spacing `s > 0`, the spacing-mode output includes `maxX` and `maxY`
as the terminal coordinate on their axis — even when `max - min` is not
an integer multiple of `s` — with the generated per-axis coordinates
`round3 (min (min + i*s) max)` for `i < ceil((max-min)/s) + 1` and `max`
appended when the last generated coordinate does not equal it exactly.
Because of the 3-decimal rounding an earlier generated coordinate can
also equal `max` (see the counterexample), so `max` is included at least
once, not always exactly once. -/
theorem c6_amended_spacing_includes_max (minX maxX minY maxY s : ℚ)
    (pcX pcY : ℕ) (_hx : minX ≤ maxX) (_hy : minY ≤ maxY) (_hs : 0 < s) :
    (axisPointsSpacing minX maxX s).getLast? = some maxX ∧
    (axisPointsSpacing minY maxY s).getLast? = some maxY ∧
    maxX ∈ axisPointsSpacing minX maxX s ∧
    maxY ∈ axisPointsSpacing minY maxY s ∧
    (genPointsSpacing minX maxX s).length = (Int.ceil ((maxX - minX) / s)).toNat + 1 ∧
    (∀ i : ℕ, i < (Int.ceil ((maxX - minX) / s)).toNat + 1 →
      (genPointsSpacing minX maxX s).getD i 0 = round3 (min (minX + (i : ℚ) * s) maxX)) ∧
    calculateProbeGrid minX maxX minY maxY s false pcX pcY
      = zigzagRows (axisPointsSpacing minX maxX s) (axisPointsSpacing minY maxY s) := by
  refine ⟨axisPointsSpacing_getLast minX maxX s, axisPointsSpacing_getLast minY maxY s,
    List.mem_of_getLast?_eq_some (axisPointsSpacing_getLast minX maxX s),
    List.mem_of_getLast?_eq_some (axisPointsSpacing_getLast minY maxY s),
    by simp [genPointsSpacing], ?_, by simp [calculateProbeGrid, axisPoints]⟩
  intro i hi
  rw [genPointsSpacing, List.getD_eq_getElem _ _ (by simpa using hi)]
  simp

/-- Witness for C6 on the rectangle `[0,10] × [0,10]` with spacing 4
(where `10 - 0` is not a multiple of 4): the axis lists are
`[0, 4, 8, 10]`, terminating in the maximum. -/
theorem c6_witness :
    (axisPointsSpacing 0 10 4).getLast? = some 10 ∧
    (10 : ℚ) ∈ axisPointsSpacing 0 10 4 ∧
    axisPointsSpacing 0 10 4 = [0, 4, 8, 10] := by
  have h := c6_amended_spacing_includes_max 0 10 0 10 4 0 0
    (by decide) (by decide) (by decide)
  exact ⟨h.1, h.2.2.1, by decide⟩

/-! ### C7 -/

lemma roundTo_mono (d : ℕ) {q r : ℚ} (h : q ≤ r) : roundTo d q ≤ roundTo d r := by
  rw [roundTo, roundTo]
  have hp : (0 : ℚ) < (10 : ℚ) ^ d := by positivity
  have hfl : ⌊q * (10 : ℚ) ^ d + 1 / 2⌋ ≤ ⌊r * (10 : ℚ) ^ d + 1 / 2⌋ := by
    apply Int.floor_le_floor
    nlinarith
  have hc : ((⌊q * (10 : ℚ) ^ d + 1 / 2⌋ : ℤ) : ℚ)
      ≤ ((⌊r * (10 : ℚ) ^ d + 1 / 2⌋ : ℤ) : ℚ) := by exact_mod_cast hfl
  exact div_le_div_of_nonneg_right hc hp.le

lemma chain'_le_range_map (f : ℕ → ℚ) (n : ℕ)
    (hf : ∀ i j : ℕ, i ≤ j → f i ≤ f j) :
    List.Chain' (· ≤ ·) ((List.range n).map f) := by
  rw [List.chain'_iff_get]
  intro i hi
  simp only [List.get_eq_getElem, List.getElem_map, List.getElem_range]
  exact hf i (i + 1) (by omega)

lemma axisPointsCount_chain (minV maxV : ℚ) (pc : ℕ) (h : minV ≤ maxV) :
    List.Chain' (· ≤ ·) (axisPointsCount minV maxV pc) := by
  simp only [axisPointsCount]
  have hstep : (0 : ℚ) ≤ (if 1 < pc then (maxV - minV) / ((pc : ℚ) - 1) else 0) := by
    by_cases hpc : 1 < pc
    · rw [if_pos hpc]
      apply div_nonneg (by linarith)
      have h1 : (1 : ℚ) < (pc : ℚ) := by exact_mod_cast hpc
      linarith
    · rw [if_neg hpc]
  apply chain'_le_range_map
  intro i j hij
  apply roundTo_mono
  have hij' : (i : ℚ) ≤ (j : ℚ) := by exact_mod_cast hij
  nlinarith

lemma genPointsSpacing_chain (minV maxV spacing : ℚ) (hs : 0 ≤ spacing) :
    List.Chain' (· ≤ ·) (genPointsSpacing minV maxV spacing) := by
  simp only [genPointsSpacing]
  apply chain'_le_range_map
  intro i j hij
  apply roundTo_mono
  apply min_le_min _ (le_refl maxV)
  have hij' : (i : ℚ) ≤ (j : ℚ) := by exact_mod_cast hij
  nlinarith

lemma genPointsSpacing_le_max (minV maxV spacing : ℚ)
    (hround : round3 maxV ≤ maxV) :
    ∀ a ∈ genPointsSpacing minV maxV spacing, a ≤ maxV := by
  intro a ha
  simp only [genPointsSpacing, List.mem_map, List.mem_range] at ha
  obtain ⟨i, _, rfl⟩ := ha
  have h1 : round3 (min (minV + (i : ℚ) * spacing) maxV) ≤ round3 maxV :=
    roundTo_mono 3 (min_le_right _ _)
  exact le_trans h1 hround

lemma axisPointsSpacing_chain (minV maxV spacing : ℚ) (hs : 0 ≤ spacing)
    (hround : round3 maxV ≤ maxV) :
    List.Chain' (· ≤ ·) (axisPointsSpacing minV maxV spacing) := by
  rw [axisPointsSpacing]
  by_cases h : (genPointsSpacing minV maxV spacing).getLast? = some maxV
  · rw [if_pos h]
    exact genPointsSpacing_chain _ _ _ hs
  · rw [if_neg h]
    rw [List.chain'_append]
    refine ⟨genPointsSpacing_chain _ _ _ hs, List.chain'_singleton _, ?_⟩
    intro a ha b hb
    have hbv : maxV = b := by simpa using hb
    subst hbv
    exact genPointsSpacing_le_max minV maxV spacing hround a
      (List.mem_of_getLast?_eq_some (Option.mem_def.mp ha))

lemma axisPoints_chain (minV maxV spacing : ℚ) (usePC : Bool) (pc : ℕ)
    (h : minV ≤ maxV)
    (hsp : usePC = false → 0 < spacing ∧ round3 maxV ≤ maxV) :
    List.Chain' (· ≤ ·) (axisPoints minV maxV spacing usePC pc) := by
  cases usePC
  · obtain ⟨h1, h2⟩ := hsp rfl
    simpa [axisPoints] using axisPointsSpacing_chain minV maxV spacing (le_of_lt h1) h2
  · simpa [axisPoints] using axisPointsCount_chain minV maxV pc h

/-- C7 counterexample: with `maxX = 3/5000 = 0.0006` (not representable
at 3 decimals), spacing mode generates `[0, 0.001]` and then appends the
exact `maxX = 0.0006`, so row 0 (an even row) has x-coordinates
`[0, 0.001, 0.0006]`, which are not non-decreasing. -/
theorem c7_counterexample :
    calculateProbeGrid 0 (3/5000) 0 0 1 false 0 0
      = [(0, 0), (1/1000, 0), (3/5000, 0)] ∧
    ¬ ((1 : ℚ)/1000 ≤ 3/5000) ∧
    ¬ List.Chain' (· ≤ ·)
        ((calculateProbeGrid 0 (3/5000) 0 0 1 false 0 0).map Prod.fst) := by
  refine ⟨by decide, by decide, ?_⟩
  intro h
  have heq : (calculateProbeGrid 0 (3/5000) 0 0 1 false 0 0).map Prod.fst
      = [0, 1/1000, 3/5000] := by decide
  rw [heq, List.chain'_cons, List.chain'_cons] at h
  exact absurd h.2.1 (by decide)

/-- C7 (amended): for every rectangle (`min ≤ max` per axis) and either
resolution mode — requiring in spacing mode that `s > 0` and that the
axis maxima do not round up at 3 decimals (`round3 max ≤ max`, e.g. any
max that is a multiple of 0.001; otherwise the appended exact `max` can
undercut the rounded last coordinate, see the counterexample) — the grid
is the concatenation of rows along the y-axis list, whose values are
non-decreasing (equal y values can occur after rounding, so not always
strictly increasing), and within the row of index `i` the x-coordinates
are non-decreasing for even `i` and non-increasing for odd `i`. -/
theorem c7_amended_zigzag (minX maxX minY maxY s : ℚ) (usePC : Bool)
    (pcX pcY : ℕ) (hx : minX ≤ maxX) (hy : minY ≤ maxY)
    (hsp : usePC = false → 0 < s ∧ round3 maxX ≤ maxX ∧ round3 maxY ≤ maxY) :
    calculateProbeGrid minX maxX minY maxY s usePC pcX pcY
      = zigzagRows (axisPoints minX maxX s usePC pcX)
          (axisPoints minY maxY s usePC pcY) ∧
    List.Chain' (· ≤ ·) (axisPoints minY maxY s usePC pcY) ∧
    (∀ i : ℕ, i % 2 = 0 →
      List.Chain' (· ≤ ·) (rowXs (axisPoints minX maxX s usePC pcX) i)) ∧
    (∀ i : ℕ, i % 2 = 1 →
      List.Chain' (fun a b => b ≤ a) (rowXs (axisPoints minX maxX s usePC pcX) i)) := by
  have hxc := axisPoints_chain minX maxX s usePC pcX hx
    (fun h => ⟨(hsp h).1, (hsp h).2.1⟩)
  have hyc := axisPoints_chain minY maxY s usePC pcY hy
    (fun h => ⟨(hsp h).1, (hsp h).2.2⟩)
  refine ⟨rfl, hyc, ?_, ?_⟩
  · intro i hi
    rw [rowXs, if_pos hi]
    exact hxc
  · intro i hi
    have hne : ¬ i % 2 = 0 := by omega
    rw [rowXs, if_neg hne]
    rw [List.chain'_reverse]
    exact hxc

/-- Witness for C7 on `[0,10] × [0,10]` with spacing 4: the axis list is
`[0, 4, 8, 10]`, non-decreasing, and its reversal (an odd row) is
non-increasing. -/
theorem c7_witness :
    List.Chain' (· ≤ ·) (axisPoints 0 10 4 false 0) ∧
    List.Chain' (fun a b => b ≤ a) (rowXs (axisPoints 0 10 4 false 0) 1) ∧
    axisPoints 0 10 4 false 0 = [0, 4, 8, 10] := by
  have h := c7_amended_zigzag 0 10 0 10 4 false 0 0 (by decide) (by decide)
    (fun _ => ⟨by decide, by decide, by decide⟩)
  exact ⟨h.2.1, h.2.2.2 1 rfl, by decide⟩

/-! ### C1 -/

lemma uniqueSorted_sorted_le (l : List ℚ) :
    (uniqueSorted l).Sorted (· ≤ ·) :=
  List.sorted_insertionSort _ _

lemma uniqueSorted_nodup (l : List ℚ) : (uniqueSorted l).Nodup :=
  ((List.perm_insertionSort _ _).nodup_iff).mpr (List.nodup_dedup l)

lemma uniqueSorted_sorted_lt (l : List ℚ) :
    (uniqueSorted l).Sorted (· < ·) :=
  (uniqueSorted_sorted_le l).lt_of_le (uniqueSorted_nodup l)

lemma uniqueSorted_mem (l : List ℚ) (a : ℚ) :
    a ∈ uniqueSorted l ↔ a ∈ l := by
  rw [uniqueSorted, (List.perm_insertionSort _ _).mem_iff, List.mem_dedup]

lemma cellIdx_lt (u : List ℚ) (c : ℚ) (h : 2 ≤ u.length) :
    cellIdx u c + 1 < u.length := by
  induction u with
  | nil => simp at h
  | cons a u ih =>
    cases u with
    | nil => simp at h
    | cons b rest =>
      by_cases h1 : a ≤ c ∧ c ≤ b
      · simp only [cellIdx, if_pos h1]
        simp
      · rcases rest with _ | ⟨r, rs⟩
        · simp [cellIdx, h1]
        · have hres : cellIdx (a :: b :: r :: rs) c = cellIdx (b :: r :: rs) c + 1 := by
            simp [cellIdx, h1]
          have hih := ih (by simp)
          rw [hres]
          simp only [List.length_cons] at hih ⊢
          omega

lemma cellIdx_mem_spec (u : List ℚ) (c : ℚ) (hs : u.Sorted (· < ·))
    (hmem : c ∈ u) (hlen : 2 ≤ u.length) :
    c = u.getD (cellIdx u c) 0 ∨ c = u.getD (cellIdx u c + 1) 0 := by
  induction u with
  | nil => simp at hlen
  | cons a u ih =>
    cases u with
    | nil => simp at hlen
    | cons b rest =>
      have hab : a < b := List.rel_of_sorted_cons hs b (List.mem_cons_self b rest)
      by_cases h1 : a ≤ c ∧ c ≤ b
      · -- containment: c is a or b
        have hc : c = a ∨ c = b := by
          rcases List.mem_cons.mp hmem with h | h
          · exact Or.inl h
          · rcases List.mem_cons.mp h with h | h
            · exact Or.inr h
            · exfalso
              have hbc : b < c := List.rel_of_sorted_cons (hs.of_cons) c h
              exact absurd h1.2 (not_le.mpr hbc)
        rw [cellIdx, if_pos h1]
        simpa using hc
      · -- no containment at the head interval: c = a is impossible
        have hca : c ≠ a := by
          rintro rfl
          exact h1 ⟨le_refl c, le_of_lt hab⟩
        have hmem' : c ∈ b :: rest := by
          rcases List.mem_cons.mp hmem with h | h
          · exact absurd h hca
          · exact h
        rcases rest with _ | ⟨r, rs⟩
        · exfalso
          have hcb : c = b := by simpa using hmem'
          exact h1 ⟨by rw [hcb]; exact le_of_lt hab, le_of_eq hcb⟩
        · have hres : cellIdx (a :: b :: r :: rs) c = cellIdx (b :: r :: rs) c + 1 := by
            simp [cellIdx, h1]
          have hspec := ih hs.of_cons hmem' (by simp)
          rw [hres]
          simpa using hspec

lemma lookupCorner_spec {pts : List HeightMapPoint} {a b : ℚ} {p : HeightMapPoint}
    (h : lookupCorner pts a b = some p) : p ∈ pts ∧ p.x = a ∧ p.y = b := by
  have h1 := List.find?_some h
  have h2 := List.mem_of_find?_eq_some h
  simp at h1
  exact ⟨h2, h1.1, h1.2⟩

lemma lookupCorner_isSome {pts : List HeightMapPoint} {a b : ℚ}
    (h : ∃ p ∈ pts, p.x = a ∧ p.y = b) :
    ∃ q, lookupCorner pts a b = some q := by
  obtain ⟨p, hp, hx, hy⟩ := h
  cases hfind : lookupCorner pts a b with
  | some q => exact ⟨q, rfl⟩
  | none =>
    exfalso
    have := List.find?_eq_none.mp hfind p hp
    simp [hx, hy] at this

lemma clampQ_idem (lo hi v : ℚ) : clampQ lo hi (clampQ lo hi v) = clampQ lo hi v := by
  unfold clampQ
  rcases le_total lo (min hi v) with h | h
  · rw [max_eq_right h, min_eq_right (min_le_left hi v), max_eq_right h]
  · rw [max_eq_left h]
    rcases le_total lo hi with h2 | h2
    · rw [min_eq_right h2, max_self]
    · rw [min_eq_left h2, max_eq_left h2]

lemma clampQ_of_le (lo hi v : ℚ) (h1 : lo ≤ v) (h2 : v ≤ hi) :
    clampQ lo hi v = v := by
  unfold clampQ
  rw [min_eq_right h2, max_eq_right h1]

/-- The bilinear form of a cell, with weights taken from the given
(unclamped) query coordinates: the linear extension of the cell's
interpolant.  This is what the spec calls "the linear extension of the
nearest edge cell's gradient". -/
def cellExtension (c : SurroundingCell) (x y : ℚ) : ℚ :=
  let xWeight := (x - c.p00.x) / (c.p10.x - c.p00.x)
  let yWeight := (y - c.p00.y) / (c.p01.y - c.p00.y)
  c.p00.z * (1 - xWeight) * (1 - yWeight) + c.p10.z * xWeight * (1 - yWeight) +
    c.p01.z * (1 - xWeight) * yWeight + c.p11.z * xWeight * yWeight

/-- The x-direction gradient of a cell's interpolant at height `y`
(change in Z per cell width). -/
def xGradient (c : SurroundingCell) (y : ℚ) : ℚ :=
  let yWeight := (y - c.p00.y) / (c.p01.y - c.p00.y)
  (c.p10.z - c.p00.z) * (1 - yWeight) + (c.p11.z - c.p01.z) * yWeight

lemma findSurroundingPoints_corners (x y : ℚ) (m : HeightMapData)
    (cell : SurroundingCell) (hc : findSurroundingPoints x y m = some cell) :
    cell.p00.x < cell.p10.x ∧ cell.p00.y < cell.p01.y ∧
    cell.p00.x = cell.p01.x ∧ cell.p10.x = cell.p11.x ∧
    cell.p00.y = cell.p10.y ∧ cell.p01.y = cell.p11.y := by
  simp only [findSurroundingPoints] at hc
  by_cases hg : (uniqueSorted (m.points.map (fun p => p.x))).length < 2 ∨
      (uniqueSorted (m.points.map (fun p => p.y))).length < 2
  · rw [if_pos hg] at hc
    exact absurd hc (by simp)
  · rw [if_neg hg] at hc
    push_neg at hg
    have hx2 : 2 ≤ (uniqueSorted (m.points.map (fun p => p.x))).length := hg.1
    have hy2 : 2 ≤ (uniqueSorted (m.points.map (fun p => p.y))).length := hg.2
    have hxlt := cellIdx_lt (uniqueSorted (m.points.map (fun p => p.x)))
      (clampQ m.bounds.minX m.bounds.maxX x) hx2
    have hylt := cellIdx_lt (uniqueSorted (m.points.map (fun p => p.y)))
      (clampQ m.bounds.minY m.bounds.maxY y) hy2
    split at hc
    case _ p00 p10 p01 p11 h00 h10 h01 h11 =>
      obtain ⟨_, h00x, h00y⟩ := lookupCorner_spec h00
      obtain ⟨_, h10x, h10y⟩ := lookupCorner_spec h10
      obtain ⟨_, h01x, h01y⟩ := lookupCorner_spec h01
      obtain ⟨_, h11x, h11y⟩ := lookupCorner_spec h11
      have hcell : cell = ⟨p00, p10, p01, p11⟩ := (Option.some.inj hc).symm
      subst hcell
      have hx01 : (uniqueSorted (m.points.map (fun p => p.x))).getD
            (cellIdx (uniqueSorted (m.points.map (fun p => p.x)))
              (clampQ m.bounds.minX m.bounds.maxX x)) 0
          < (uniqueSorted (m.points.map (fun p => p.x))).getD
            (cellIdx (uniqueSorted (m.points.map (fun p => p.x)))
              (clampQ m.bounds.minX m.bounds.maxX x) + 1)
            ((uniqueSorted (m.points.map (fun p => p.x))).getD
              (cellIdx (uniqueSorted (m.points.map (fun p => p.x)))
                (clampQ m.bounds.minX m.bounds.maxX x)) 0) := by
        rw [List.getD_eq_getElem _ _ (by omega), List.getD_eq_getElem _ _ hxlt]
        exact (uniqueSorted_sorted_lt _).rel_get_of_lt (by simp)
      have hy01 : (uniqueSorted (m.points.map (fun p => p.y))).getD
            (cellIdx (uniqueSorted (m.points.map (fun p => p.y)))
              (clampQ m.bounds.minY m.bounds.maxY y)) 0
          < (uniqueSorted (m.points.map (fun p => p.y))).getD
            (cellIdx (uniqueSorted (m.points.map (fun p => p.y)))
              (clampQ m.bounds.minY m.bounds.maxY y) + 1)
            ((uniqueSorted (m.points.map (fun p => p.y))).getD
              (cellIdx (uniqueSorted (m.points.map (fun p => p.y)))
                (clampQ m.bounds.minY m.bounds.maxY y)) 0) := by
        rw [List.getD_eq_getElem _ _ (by omega), List.getD_eq_getElem _ _ hylt]
        exact (uniqueSorted_sorted_lt _).rel_get_of_lt (by simp)
      refine ⟨?_, ?_, ?_, ?_, ?_, ?_⟩ <;>
        simp only [h00x, h00y, h10x, h10y, h01x, h01y, h11x, h11y]
      · exact hx01
      · exact hy01
    case _ =>
      exact absurd hc (by simp)

lemma findSurroundingPoints_clamped (x y : ℚ) (m : HeightMapData) :
    findSurroundingPoints (clampQ m.bounds.minX m.bounds.maxX x)
        (clampQ m.bounds.minY m.bounds.maxY y) m
      = findSurroundingPoints x y m := by
  simp only [findSurroundingPoints, clampQ_idem]

lemma bilinearInterpolate_eq_cellExtension (x y : ℚ) (m : HeightMapData)
    (cell : SurroundingCell) (hc : findSurroundingPoints x y m = some cell) :
    bilinearInterpolate x y m = some (cellExtension cell x y) := by
  obtain ⟨hx01, hy01, _, _, _, _⟩ := findSurroundingPoints_corners x y m cell hc
  simp only [bilinearInterpolate, hc]
  rw [if_neg (by intro h; exact absurd h.1 (ne_of_lt hx01))]
  rw [if_pos (by linarith), if_pos (by linarith)]
  rw [cellExtension]

/-- C1: for a height map with at least two distinct x and two distinct y
sample values, and a query `(x, y)` outside `map.bounds` whose selected
edge cell exists, the interpolation weights are computed from the
unclamped query (the clamped coordinates select the same cell as the
original query, and the returned value is the cell's linear extension
`cellExtension` evaluated at the unclamped `(x, y)`); consequently, for a
query beyond the right edge, the result differs from the clamped edge
value by `(x - maxX)/(x1 - x0)` times the cell's x-gradient, so it equals
the edge value iff that gradient is exactly 0. -/
theorem c1_extrapolation_unclamped_weights (m : HeightMapData) (x y : ℚ)
    (cell : SurroundingCell)
    (hx2 : 2 ≤ (uniqueSorted (m.points.map (fun p => p.x))).length)
    (hy2 : 2 ≤ (uniqueSorted (m.points.map (fun p => p.y))).length)
    (hout : isWithinBounds x y m = false)
    (hcell : findSurroundingPoints x y m = some cell) :
    findSurroundingPoints (clampQ m.bounds.minX m.bounds.maxX x)
        (clampQ m.bounds.minY m.bounds.maxY y) m = some cell ∧
    bilinearInterpolate x y m = some (cellExtension cell x y) ∧
    (m.bounds.minX ≤ m.bounds.maxX → m.bounds.maxX < x →
     m.bounds.minY ≤ y → y ≤ m.bounds.maxY →
      (cellExtension cell x y - cellExtension cell m.bounds.maxX y
          = ((x - m.bounds.maxX) / (cell.p10.x - cell.p00.x)) * xGradient cell y ∧
       (bilinearInterpolate x y m = bilinearInterpolate m.bounds.maxX y m ↔
         xGradient cell y = 0))) := by
  obtain ⟨hx01, hy01, _, _, _, _⟩ := findSurroundingPoints_corners x y m cell hcell
  refine ⟨by rw [findSurroundingPoints_clamped]; exact hcell,
    bilinearInterpolate_eq_cellExtension x y m cell hcell, ?_⟩
  intro hminmax hxout hymin hymax
  have hclampx : clampQ m.bounds.minX m.bounds.maxX x = m.bounds.maxX := by
    unfold clampQ
    rw [min_eq_left (le_of_lt hxout), max_eq_right hminmax]
  have hclampy : clampQ m.bounds.minY m.bounds.maxY y = y :=
    clampQ_of_le _ _ _ hymin hymax
  have hcell' : findSurroundingPoints m.bounds.maxX y m = some cell := by
    have h := findSurroundingPoints_clamped x y m
    rw [hclampx, hclampy] at h
    rw [h]
    exact hcell
  have hval' : bilinearInterpolate m.bounds.maxX y m
      = some (cellExtension cell m.bounds.maxX y) :=
    bilinearInterpolate_eq_cellExtension _ _ m cell hcell'
  have hxr : cell.p10.x - cell.p00.x ≠ 0 := by linarith
  have hyr : cell.p01.y - cell.p00.y ≠ 0 := by linarith
  have halg : cellExtension cell x y - cellExtension cell m.bounds.maxX y
      = ((x - m.bounds.maxX) / (cell.p10.x - cell.p00.x)) * xGradient cell y := by
    simp only [cellExtension, xGradient]
    field_simp
    ring
  refine ⟨halg, ?_⟩
  rw [bilinearInterpolate_eq_cellExtension x y m cell hcell, hval']
  constructor
  · intro h
    have heq : cellExtension cell x y = cellExtension cell m.bounds.maxX y :=
      Option.some.inj h
    have hz : ((x - m.bounds.maxX) / (cell.p10.x - cell.p00.x)) * xGradient cell y = 0 := by
      rw [← halg, heq]
      ring
    rcases mul_eq_zero.mp hz with h0 | h0
    · exfalso
      have hd : x - m.bounds.maxX ≠ 0 := by linarith
      exact (div_ne_zero hd hxr) h0
    · exact h0
  · intro h
    have : cellExtension cell x y - cellExtension cell m.bounds.maxX y = 0 := by
      rw [halg, h]
      ring
    have heq : cellExtension cell x y = cellExtension cell m.bounds.maxX y := by linarith
    rw [heq]

/-- Witness for C1 on `unitMap` at the outside query `(2, 1/2)`: the
selected edge cell is the whole unit square, the extrapolated value is
`5/2` (the linear extension), the clamped edge value is `3/2`, the
x-gradient is `1 ≠ 0`, and the extrapolated value indeed differs from the
edge value. -/
theorem c1_witness :
    bilinearInterpolate 2 (1/2) unitMap = some (5/2) ∧
    bilinearInterpolate 1 (1/2) unitMap = some (3/2) ∧
    xGradient ⟨⟨0, 0, 0⟩, ⟨1, 0, 1⟩, ⟨0, 1, 1⟩, ⟨1, 1, 2⟩⟩ (1/2) = 1 ∧
    bilinearInterpolate 2 (1/2) unitMap ≠ bilinearInterpolate 1 (1/2) unitMap := by
  have h := c1_extrapolation_unclamped_weights unitMap 2 (1/2)
    ⟨⟨0, 0, 0⟩, ⟨1, 0, 1⟩, ⟨0, 1, 1⟩, ⟨1, 1, 2⟩⟩
    (by decide) (by decide) (by decide) (by decide)
  have h3 := h.2.2 (by decide) (by decide) (by decide) (by decide)
  refine ⟨?_, ?_, by decide, ?_⟩
  · rw [h.2.1]; decide
  · have := bilinearInterpolate_eq_cellExtension 1 (1/2) unitMap
      ⟨⟨0, 0, 0⟩, ⟨1, 0, 1⟩, ⟨0, 1, 1⟩, ⟨1, 1, 2⟩⟩ (by decide)
    rw [this]; decide
  · intro heq
    have hgr := h3.2.mp (show bilinearInterpolate 2 (1/2) unitMap
      = bilinearInterpolate unitMap.bounds.maxX (1/2) unitMap from heq)
    revert hgr
    decide

/-! ### C8 -/

/-- C8 counterexample: `twoPointMap` stores the sample `(0, 0, 5)`, yet
`bilinearInterpolate` at exactly `(0, 0)` returns `none` (not that
sample's Z): the selected cell's corner `(1, 0)` has no stored point. -/
theorem c8_counterexample :
    (⟨0, 0, 5⟩ : HeightMapPoint) ∈ twoPointMap.points ∧
    bilinearInterpolate 0 0 twoPointMap = none := by
  exact ⟨by decide, by decide⟩

/-- Every pair of one distinct x value and one distinct y value present in
the map has a stored point (the map is a complete grid). -/
def gridComplete (m : HeightMapData) : Prop :=
  ∀ a ∈ uniqueSorted (m.points.map (fun q => q.x)),
    ∀ b ∈ uniqueSorted (m.points.map (fun q => q.y)),
      ∃ q ∈ m.points, q.x = a ∧ q.y = b

/-- No two stored points share the same (x, y). -/
def pairwiseDistinctXY (m : HeightMapData) : Prop :=
  ∀ q ∈ m.points, ∀ r ∈ m.points, q.x = r.x → q.y = r.y → q = r

/-- Every stored point lies within the map's own bounds (as holds for a
map whose bounds are the envelope of its points). -/
def pointsWithinBounds (m : HeightMapData) : Prop :=
  ∀ q ∈ m.points, m.bounds.minX ≤ q.x ∧ q.x ≤ m.bounds.maxX ∧
    m.bounds.minY ≤ q.y ∧ q.y ≤ m.bounds.maxY

instance (m : HeightMapData) : Decidable (gridComplete m) :=
  inferInstanceAs (Decidable
    (∀ a ∈ uniqueSorted (m.points.map (fun q : HeightMapPoint => q.x)),
      ∀ b ∈ uniqueSorted (m.points.map (fun q : HeightMapPoint => q.y)),
        ∃ q ∈ m.points, q.x = a ∧ q.y = b))

instance (m : HeightMapData) : Decidable (pairwiseDistinctXY m) :=
  inferInstanceAs (Decidable (∀ q ∈ m.points, ∀ r ∈ m.points,
    q.x = r.x → q.y = r.y → q = r))

instance (m : HeightMapData) : Decidable (pointsWithinBounds m) :=
  inferInstanceAs (Decidable (∀ q ∈ m.points,
    m.bounds.minX ≤ q.x ∧ q.x ≤ m.bounds.maxX ∧
    m.bounds.minY ≤ q.y ∧ q.y ≤ m.bounds.maxY))

lemma getD_default_irrel (u : List ℚ) (i : ℕ) (d : ℚ) (h : i < u.length) :
    u.getD i d = u.getD i 0 := by
  rw [List.getD_eq_getElem _ _ h, List.getD_eq_getElem _ _ h]

lemma findSurroundingPoints_eval (x y : ℚ) (m : HeightMapData)
    (hlen : ¬((uniqueSorted (m.points.map (fun q => q.x))).length < 2 ∨
      (uniqueSorted (m.points.map (fun q => q.y))).length < 2))
    (x0 x1 y0 y1 : ℚ) (q00 q10 q01 q11 : HeightMapPoint)
    (hx0 : (uniqueSorted (m.points.map (fun q => q.x))).getD
      (cellIdx (uniqueSorted (m.points.map (fun q => q.x)))
        (clampQ m.bounds.minX m.bounds.maxX x)) 0 = x0)
    (hx1 : (uniqueSorted (m.points.map (fun q => q.x))).getD
      (cellIdx (uniqueSorted (m.points.map (fun q => q.x)))
        (clampQ m.bounds.minX m.bounds.maxX x) + 1) x0 = x1)
    (hy0 : (uniqueSorted (m.points.map (fun q => q.y))).getD
      (cellIdx (uniqueSorted (m.points.map (fun q => q.y)))
        (clampQ m.bounds.minY m.bounds.maxY y)) 0 = y0)
    (hy1 : (uniqueSorted (m.points.map (fun q => q.y))).getD
      (cellIdx (uniqueSorted (m.points.map (fun q => q.y)))
        (clampQ m.bounds.minY m.bounds.maxY y) + 1) y0 = y1)
    (h00 : lookupCorner m.points x0 y0 = some q00)
    (h10 : lookupCorner m.points x1 y0 = some q10)
    (h01 : lookupCorner m.points x0 y1 = some q01)
    (h11 : lookupCorner m.points x1 y1 = some q11) :
    findSurroundingPoints x y m = some ⟨q00, q10, q01, q11⟩ := by
  simp only [findSurroundingPoints, if_neg hlen, hx0, hx1, hy0, hy1, h00, h10, h01, h11]

lemma cellExtension_at_corner (q00 q10 q01 q11 : HeightMapPoint) (x y : ℚ)
    (hx : q10.x - q00.x ≠ 0) (hy : q01.y - q00.y ≠ 0) :
    (x = q00.x → y = q00.y → cellExtension ⟨q00, q10, q01, q11⟩ x y = q00.z) ∧
    (x = q10.x → y = q00.y → cellExtension ⟨q00, q10, q01, q11⟩ x y = q10.z) ∧
    (x = q00.x → y = q01.y → cellExtension ⟨q00, q10, q01, q11⟩ x y = q01.z) ∧
    (x = q10.x → y = q01.y → cellExtension ⟨q00, q10, q01, q11⟩ x y = q11.z) := by
  refine ⟨fun h1 h2 => ?_, fun h1 h2 => ?_, fun h1 h2 => ?_, fun h1 h2 => ?_⟩ <;>
    (subst h1; subst h2;
     simp only [cellExtension, div_self hx, div_self hy, sub_self, zero_div];
     ring)

/-- C8 (amended): for every height map whose points form a complete grid
with pairwise-distinct (x, y) pairs, at least two distinct values on each
axis, and all points inside the map's bounds (as produced by the builder,
whose bounds are the envelope of the points), querying
`bilinearInterpolate` at the exact (x, y) of a stored sample returns that
sample's Z (exactly, since the embedding computes in `ℚ`).  As stated —
for *every* height map — the claim fails: see the counterexample. -/
theorem c8_amended_exact_at_samples (m : HeightMapData) (p : HeightMapPoint)
    (hp : p ∈ m.points)
    (hx2 : 2 ≤ (uniqueSorted (m.points.map (fun q => q.x))).length)
    (hy2 : 2 ≤ (uniqueSorted (m.points.map (fun q => q.y))).length)
    (hgrid : gridComplete m) (hdist : pairwiseDistinctXY m)
    (hbounds : pointsWithinBounds m) :
    bilinearInterpolate p.x p.y m = some p.z := by
  obtain ⟨hb1, hb2, hb3, hb4⟩ := hbounds p hp
  have hclampx : clampQ m.bounds.minX m.bounds.maxX p.x = p.x :=
    clampQ_of_le _ _ _ hb1 hb2
  have hclampy : clampQ m.bounds.minY m.bounds.maxY p.y = p.y :=
    clampQ_of_le _ _ _ hb3 hb4
  have hjxlt := cellIdx_lt (uniqueSorted (m.points.map (fun q => q.x))) p.x hx2
  have hjylt := cellIdx_lt (uniqueSorted (m.points.map (fun q => q.y))) p.y hy2
  have hsorx := uniqueSorted_sorted_lt (m.points.map (fun q => q.x))
  have hsory := uniqueSorted_sorted_lt (m.points.map (fun q => q.y))
  have hmemx : p.x ∈ uniqueSorted (m.points.map (fun q => q.x)) :=
    (uniqueSorted_mem _ _).mpr (List.mem_map_of_mem _ hp)
  have hmemy : p.y ∈ uniqueSorted (m.points.map (fun q => q.y)) :=
    (uniqueSorted_mem _ _).mpr (List.mem_map_of_mem _ hp)
  have hx01 : (uniqueSorted (m.points.map (fun q => q.x))).getD
        (cellIdx (uniqueSorted (m.points.map (fun q => q.x))) p.x) 0
      < (uniqueSorted (m.points.map (fun q => q.x))).getD
        (cellIdx (uniqueSorted (m.points.map (fun q => q.x))) p.x + 1) 0 := by
    rw [List.getD_eq_getElem _ _ (by omega), List.getD_eq_getElem _ _ hjxlt]
    exact hsorx.rel_get_of_lt (by simp)
  have hy01 : (uniqueSorted (m.points.map (fun q => q.y))).getD
        (cellIdx (uniqueSorted (m.points.map (fun q => q.y))) p.y) 0
      < (uniqueSorted (m.points.map (fun q => q.y))).getD
        (cellIdx (uniqueSorted (m.points.map (fun q => q.y))) p.y + 1) 0 := by
    rw [List.getD_eq_getElem _ _ (by omega), List.getD_eq_getElem _ _ hjylt]
    exact hsory.rel_get_of_lt (by simp)
  have hx0mem : (uniqueSorted (m.points.map (fun q => q.x))).getD
        (cellIdx (uniqueSorted (m.points.map (fun q => q.x))) p.x) 0
      ∈ uniqueSorted (m.points.map (fun q => q.x)) := by
    rw [List.getD_eq_getElem _ _ (by omega)]
    exact List.getElem_mem _
  have hx1mem : (uniqueSorted (m.points.map (fun q => q.x))).getD
        (cellIdx (uniqueSorted (m.points.map (fun q => q.x))) p.x + 1) 0
      ∈ uniqueSorted (m.points.map (fun q => q.x)) := by
    rw [List.getD_eq_getElem _ _ hjxlt]
    exact List.getElem_mem _
  have hy0mem : (uniqueSorted (m.points.map (fun q => q.y))).getD
        (cellIdx (uniqueSorted (m.points.map (fun q => q.y))) p.y) 0
      ∈ uniqueSorted (m.points.map (fun q => q.y)) := by
    rw [List.getD_eq_getElem _ _ (by omega)]
    exact List.getElem_mem _
  have hy1mem : (uniqueSorted (m.points.map (fun q => q.y))).getD
        (cellIdx (uniqueSorted (m.points.map (fun q => q.y))) p.y + 1) 0
      ∈ uniqueSorted (m.points.map (fun q => q.y)) := by
    rw [List.getD_eq_getElem _ _ hjylt]
    exact List.getElem_mem _
  obtain ⟨q00, h00⟩ := lookupCorner_isSome (hgrid _ hx0mem _ hy0mem)
  obtain ⟨q10, h10⟩ := lookupCorner_isSome (hgrid _ hx1mem _ hy0mem)
  obtain ⟨q01, h01⟩ := lookupCorner_isSome (hgrid _ hx0mem _ hy1mem)
  obtain ⟨q11, h11⟩ := lookupCorner_isSome (hgrid _ hx1mem _ hy1mem)
  obtain ⟨hq00m, hq00x, hq00y⟩ := lookupCorner_spec h00
  obtain ⟨hq10m, hq10x, hq10y⟩ := lookupCorner_spec h10
  obtain ⟨hq01m, hq01x, hq01y⟩ := lookupCorner_spec h01
  obtain ⟨hq11m, hq11x, hq11y⟩ := lookupCorner_spec h11
  have hfsp : findSurroundingPoints p.x p.y m = some ⟨q00, q10, q01, q11⟩ := by
    apply findSurroundingPoints_eval p.x p.y m (by omega) _ _ _ _ q00 q10 q01 q11
    · rw [hclampx]
    · rw [hclampx, getD_default_irrel _ _ _ hjxlt]
    · rw [hclampy]
    · rw [hclampy, getD_default_irrel _ _ _ hjylt]
    · exact h00
    · exact h10
    · exact h01
    · exact h11
  have hval := bilinearInterpolate_eq_cellExtension p.x p.y m ⟨q00, q10, q01, q11⟩ hfsp
  rw [hval]
  simp only [Option.some.injEq]
  have hxne : q10.x - q00.x ≠ 0 := by
    rw [hq10x, hq00x]
    exact sub_ne_zero.mpr (ne_of_gt hx01)
  have hyne : q01.y - q00.y ≠ 0 := by
    rw [hq01y, hq00y]
    exact sub_ne_zero.mpr (ne_of_gt hy01)
  have hcorn := cellExtension_at_corner q00 q10 q01 q11 p.x p.y hxne hyne
  have hxcase := cellIdx_mem_spec (uniqueSorted (m.points.map (fun q => q.x)))
    p.x hsorx hmemx hx2
  have hycase := cellIdx_mem_spec (uniqueSorted (m.points.map (fun q => q.y)))
    p.y hsory hmemy hy2
  rcases hxcase with hxa | hxa <;> rcases hycase with hya | hya
  · have h1 : p.x = q00.x := by rw [hq00x]; exact hxa
    have h2 : p.y = q00.y := by rw [hq00y]; exact hya
    rw [hcorn.1 h1 h2]
    have hq : q00 = p := hdist q00 hq00m p hp h1.symm h2.symm
    rw [hq]
  · have h1 : p.x = q00.x := by rw [hq00x]; exact hxa
    have h2 : p.y = q01.y := by rw [hq01y]; exact hya
    rw [hcorn.2.2.1 h1 h2]
    have h1' : p.x = q01.x := by rw [hq01x, ← hq00x]; exact h1
    have hq : q01 = p := hdist q01 hq01m p hp h1'.symm h2.symm
    rw [hq]
  · have h1 : p.x = q10.x := by rw [hq10x]; exact hxa
    have h2 : p.y = q00.y := by rw [hq00y]; exact hya
    rw [hcorn.2.1 h1 h2]
    have h2' : p.y = q10.y := by rw [hq10y, ← hq00y]; exact h2
    have hq : q10 = p := hdist q10 hq10m p hp h1.symm h2'.symm
    rw [hq]
  · have h1 : p.x = q10.x := by rw [hq10x]; exact hxa
    have h2 : p.y = q01.y := by rw [hq01y]; exact hya
    rw [hcorn.2.2.2 h1 h2]
    have h1' : p.x = q11.x := by rw [hq11x, ← hq10x]; exact h1
    have h2' : p.y = q11.y := by rw [hq11y, ← hq01y]; exact h2
    have hq : q11 = p := hdist q11 hq11m p hp h1'.symm h2'.symm
    rw [hq]

/-- Witness for C8 on `unitMap` at its stored corner `(1, 1, 2)`:
interpolation at `(1, 1)` returns exactly `2`. -/
theorem c8_witness :
    (⟨1, 1, 2⟩ : HeightMapPoint) ∈ unitMap.points ∧
    bilinearInterpolate 1 1 unitMap = some 2 := by
  refine ⟨by decide, ?_⟩
  exact c8_amended_exact_at_samples unitMap ⟨1, 1, 2⟩ (by decide) (by decide)
    (by decide) (by decide) (by decide) (by decide)
